import Mathlib

/-! FormCraft Pro client-side scripts (`static/js`)

A shallow embedding of the event-tracking pipeline of `tracking.js` (the event
queue, the `trackEvent` / `flushEvents` pair, session initialisation and the
click, form, scroll and time-on-page listeners), of the chart initialisers of
`analytics.js` and of the form model of `form_builder.js` (field operations,
validation, field-name sanitising).

Conventions of the embedding:

* module-level `let` variables (`eventQueue`, `sessionId`, `userId`) become the
  fields of `Tracker`, threaded explicitly;
* every read of the environment (`Date.now()`, `Math.random()`, `location`,
  `navigator`, ...) is an explicit input;
* `async function flushEvents` is split at its single `await`: `flushEvents`
  is the synchronous part run by the caller, `flushEventsResume` is the
  continuation run when the `fetch` promise settles;
* side effects on the outside world (`fetch`, `sessionStorage.setItem`,
  `console.warn`, calls of `trackEvent` from a listener) are returned as values.
-/

namespace FormCraft

/-! ## Data model -/

/-- Primitive JSON values occurring in event payloads. -/
inductive JsPrim where
  | null
  | bool (b : Bool)
  | num (n : Int)
  | str (s : String)
  deriving DecidableEq, Repr

/-- A payload value: a primitive or a flat object of primitives
(e.g. `position: {x, y}`). -/
inductive JsVal where
  | prim (p : JsPrim)
  | obj (fields : List (String × JsPrim))
  deriving DecidableEq, Repr

/-- The `data` argument of `trackEvent`: an object literal, as a key/value list. -/
abbrev EventData := List (String × JsVal)

/-- The object returned by `getDeviceInfo()`. -/
structure DeviceInfo where
  userAgent : String
  language : String
  platform : String
  screenWidth : Int
  screenHeight : Int
  colorDepth : Int
  viewportWidth : Int
  viewportHeight : Int
  timezone : String
  referrer : String
  deriving DecidableEq, Repr

/-- The object literal built in `trackEvent` (lines 60-70). -/
structure Event where
  id : String
  type : String
  timestamp : String
  sessionId : Option String
  userId : Option String
  url : String
  path : String
  data : EventData
  device : DeviceInfo
  deriving DecidableEq, Repr

/-- The object `TRACKING_CONFIG` (lines 6-13). -/
structure Config where
  enabled : Bool
  endpoint : String
  batchSize : Nat
  flushInterval : Nat
  maxRetries : Nat
  retryDelay : Nat
  deriving DecidableEq, Repr

/-- The values of `TRACKING_CONFIG` in the source. -/
def TRACKING_CONFIG : Config :=
  { enabled := true, endpoint := "/api/track", batchSize := 10,
    flushInterval := 5000, maxRetries := 3, retryDelay := 1000 }

/-- The module-level mutable variables (lines 16-18). -/
structure Tracker where
  eventQueue : List Event
  sessionId : Option String
  userId : Option String
  deriving DecidableEq, Repr

/-- What one `trackEvent` call reads from the environment. -/
structure Env where
  /-- The value of `Date.now()` used in the event id. -/
  now : Nat
  /-- The string `Math.random().toString(36)`. -/
  random36 : String
  /-- The value of `new Date().toISOString()` read for the event timestamp. -/
  isoTime : String
  /-- The value of `window.location.href`. -/
  href : String
  /-- The value of `window.location.pathname`. -/
  pathname : String
  /-- The result of `getDeviceInfo()`. -/
  device : DeviceInfo
  /-- The value of `new Date().toISOString()` read by `flushEvents` if the call
  reaches the batch size. -/
  flushTime : String
  deriving DecidableEq, Repr

/-- The `meta` object of the request body (lines 97-100). -/
structure RequestMeta where
  timestamp : String
  sessionId : Option String
  deriving DecidableEq, Repr

/-- One `fetch(endpoint, {method: 'POST', body: {events, meta}})` call. -/
structure Request where
  endpoint : String
  events : List Event
  requestMeta : RequestMeta
  deriving DecidableEq, Repr

/-- How the promise returned by `fetch` settles. -/
inductive FetchOutcome where
  /-- the promise resolves with a response carrying an HTTP status -/
  | response (status : Nat) (statusText : String)
  /-- the promise rejects (network unreachable, DNS, CORS, ...) -/
  | rejected (error : String)
  deriving DecidableEq, Repr

/-- The getter `response.ok`: the status is in the range 200-299. -/
def FetchOutcome.ok : FetchOutcome → Bool
  | .response status _ => decide (200 ≤ status) && decide (status ≤ 299)
  | .rejected _ => false

/-- How an `async` function call ends for its caller. -/
inductive Settled where
  /-- the returned promise is fulfilled -/
  | fulfilled
  /-- the returned promise is rejected with an error -/
  | rejectedWith (error : String)
  deriving DecidableEq, Repr

/-! ## `trackEvent` and `flushEvents` -/

/-- JavaScript `s.substr(start, len)` for non-negative arguments. -/
def substr (s : String) (start len : Nat) : String :=
  String.mk ((s.data.drop start).take len)

/-- The event literal of `trackEvent` (lines 60-70). -/
def buildEvent (sessionId userId : Option String) (env : Env)
    (eventType : String) (data : EventData) : Event :=
  { id := "evt_" ++ toString env.now ++ "_" ++ substr env.random36 2 9
    type := eventType
    timestamp := env.isoTime
    sessionId := sessionId
    userId := userId
    url := env.href
    path := env.pathname
    data := data
    device := env.device }

/-- The synchronous part of `flushEvents` (lines 83-102): the empty-queue
guard, the copy of the queue into `eventsToSend`, the reset of the queue and
the `fetch` call.  Returns the tracker and the request issued, if any. -/
def flushEvents (cfg : Config) (isoNow : String) (t : Tracker) :
    Tracker × Option Request :=
  if t.eventQueue.length = 0 then (t, none)
  else
    let eventsToSend := t.eventQueue
    ({ t with eventQueue := [] },
      some { endpoint := cfg.endpoint
             events := eventsToSend
             requestMeta := { timestamp := isoNow, sessionId := t.sessionId } })

/-- The body of the `try` block after the `await` (lines 104-106): rethrows a
rejection, throws on a response that is not `ok`. -/
def flushTryBody : FetchOutcome → Except String Unit
  | .rejected error => .error error
  | .response status statusText =>
    if !(FetchOutcome.response status statusText).ok then
      .error ("HTTP " ++ toString status ++ ": " ++ statusText)
    else .ok ()

/-- What the continuation of `flushEvents` returns: the tracker, the lines
passed to `console.warn` and how the promise of `flushEvents` settles. -/
structure FlushEnd where
  tracker : Tracker
  warnings : List String
  settled : Settled
  deriving DecidableEq, Repr

/-- The continuation of `flushEvents` after the `await` (lines 104-112): the
`try` body, and the `catch` block that logs and puts `eventsToSend` back in
front of the current queue. -/
def flushEventsResume (t : Tracker) (eventsToSend : List Event)
    (o : FetchOutcome) : FlushEnd :=
  match flushTryBody o with
  | .ok () => { tracker := t, warnings := [], settled := .fulfilled }
  | .error e =>
    { tracker := { t with eventQueue := eventsToSend ++ t.eventQueue }
      warnings := ["Failed to send tracking events: " ++ e]
      settled := .fulfilled }

/-- The function `trackEvent` (lines 57-79).  Returns the tracker and the
request issued by the nested `flushEvents()` call, if any. -/
def trackEvent (cfg : Config) (env : Env) (t : Tracker)
    (eventType : String) (data : EventData) : Tracker × Option Request :=
  if !cfg.enabled then (t, none)
  else
    let event := buildEvent t.sessionId t.userId env eventType data
    let t1 := { t with eventQueue := t.eventQueue ++ [event] }
    if t1.eventQueue.length ≥ cfg.batchSize then
      flushEvents cfg env.flushTime t1
    else (t1, none)

/-- How the promise returned by `flushEvents` stands when the synchronous part
returns: fulfilled when the function returned at the empty-queue guard
(line 83), still pending (`none`) when a request was issued. -/
def flushEventsReturn (cfg : Config) (isoNow : String) (t : Tracker) : Option Settled :=
  match (flushEvents cfg isoNow t).2 with
  | none => some .fulfilled
  | some _ => none


/-! ## The tracker and its network as a transition system -/

/-- The tracker together with the requests that have been issued and not yet
settled, and the events of the batches the endpoint has acknowledged. -/
structure World where
  tracker : Tracker
  /-- the pending `fetch` calls, oldest first; each suspended `flushEvents`
  holds the `events` of its request as `eventsToSend` -/
  inflight : List Request
  /-- the events of the requests answered with a success status -/
  delivered : List Event
  deriving DecidableEq, Repr

/-- One step of the page: a `trackEvent` call, a `flushEvents` call (timer,
unload or public API), or the settling of the `i`-th pending request. -/
inductive Action where
  | track (eventType : String) (data : EventData) (env : Env)
  | flush (isoNow : String)
  | settle (i : Nat) (o : FetchOutcome)
  deriving DecidableEq, Repr

/-- The effect of one action.  Settling a request that is not pending cannot
happen and leaves the world as it is. -/
def step (cfg : Config) (w : World) : Action → World
  | .track eventType data env =>
    let r := trackEvent cfg env w.tracker eventType data
    { w with tracker := r.1, inflight := w.inflight ++ r.2.toList }
  | .flush isoNow =>
    let r := flushEvents cfg isoNow w.tracker
    { w with tracker := r.1, inflight := w.inflight ++ r.2.toList }
  | .settle i o =>
    match w.inflight[i]? with
    | none => w
    | some req =>
      { tracker := (flushEventsResume w.tracker req.events o).tracker
        inflight := w.inflight.eraseIdx i
        delivered := if o.ok then w.delivered ++ req.events else w.delivered }

/-- A run of actions, left to right. -/
def run (cfg : Config) (w : World) (acts : List Action) : World :=
  acts.foldl (step cfg) w

/-- The world right after the script is loaded and the session initialised. -/
def initialWorld (sessionId userId : Option String) : World :=
  { tracker := { eventQueue := [], sessionId := sessionId, userId := userId }
    inflight := [], delivered := [] }

/-- The events constructed by the `trackEvent` calls of a run, in call order
(none when tracking is disabled: the call returns before building one). -/
def trackedEvents (cfg : Config) (sessionId userId : Option String) :
    List Action → List Event
  | [] => []
  | .track eventType data env :: rest =>
    (if cfg.enabled then [buildEvent sessionId userId env eventType data] else [])
      ++ trackedEvents cfg sessionId userId rest
  | _ :: rest => trackedEvents cfg sessionId userId rest

/-- All events currently held by pending requests. -/
def inflightEvents (w : World) : List Event :=
  (w.inflight.map Request.events).flatten

/-- Every event the system holds or has delivered, as a multiset. -/
def heldEvents (w : World) : Multiset Event :=
  (w.tracker.eventQueue : Multiset Event) + (inflightEvents w : Multiset Event)
    + (w.delivered : Multiset Event)

/-- The arguments and environment of one `trackEvent` call. -/
structure TrackInput where
  eventType : String
  data : EventData
  env : Env
  deriving DecidableEq, Repr

/-- A sequence of `trackEvent` calls as actions. -/
def trackActs (ins : List TrackInput) : List Action :=
  ins.map fun x => Action.track x.eventType x.data x.env

/-- The events that a sequence of `trackEvent` calls constructs. -/
def builtEvents (sessionId userId : Option String) (ins : List TrackInput) : List Event :=
  ins.map fun x => buildEvent sessionId userId x.env x.eventType x.data

/-- The request issued while an action runs, if any. -/
def issued (cfg : Config) (w : World) : Action → Option Request
  | .track eventType data env => (trackEvent cfg env w.tracker eventType data).2
  | .flush isoNow => (flushEvents cfg isoNow w.tracker).2
  | .settle _ _ => none

/-- Whether an action is the failure of a pending request (its batch is put
back on the queue). -/
def requeues (w : World) : Action → Bool
  | .settle i o => (w.inflight[i]?).isSome && !o.ok
  | _ => false

/-- A stretch of a run in which no flush is started and no pending request
fails. -/
def quietRun (cfg : Config) (w : World) : List Action → Bool
  | [] => true
  | a :: rest =>
    (issued cfg w a).isNone && !(requeues w a) && quietRun cfg (step cfg w a) rest

/-! ## Session initialisation -/

/-- The `sessionStorage` object as a key/value list. -/
abbrev Storage := List (String × String)

/-- The call `sessionStorage.getItem(key)`: `none` stands for `null`. -/
def Storage.getItem (s : Storage) (key : String) : Option String :=
  s.lookup key

/-- The call `sessionStorage.setItem(key, value)`. -/
def Storage.setItem (s : Storage) (key value : String) : Storage :=
  (key, value) :: s.filter fun p => p.1 != key

/-- JavaScript `!x` for a value that is `null` or a string. -/
def isFalsy : Option String → Bool
  | none => true
  | some v => v == ""

/-- What one `initializeSession` call reads from the environment. -/
structure SessionEnv where
  /-- The value of `Date.now()`. -/
  now : Nat
  /-- The string `Math.random().toString(36)`. -/
  random36 : String
  /-- The `data-user-id` value of the first element carrying that attribute, if
  there is one. -/
  userElement : Option String
  deriving DecidableEq, Repr

/-- The result of `initializeSession`: the module variables, the storage and
the `setItem` calls made. -/
structure SessionInit where
  tracker : Tracker
  store : Storage
  writes : List (String × String)
  deriving DecidableEq, Repr

/-- The session id generated on line 25 from `Date.now()` and
`Math.random().toString(36)`. -/
def newSessionId (now : Nat) (random36 : String) : String :=
  "session_" ++ toString now ++ "_" ++ substr random36 2 9

/-- The function `initializeSession` (lines 21-34). -/
def initializeSession (env : SessionEnv) (store : Storage) (t : Tracker) : SessionInit :=
  let found := store.getItem "formcraft_session_id"
  let userId := match env.userElement with
    | some u => some u
    | none => t.userId
  if isFalsy found then
    let sessionId := newSessionId env.now env.random36
    { tracker := { t with sessionId := some sessionId, userId := userId }
      store := store.setItem "formcraft_session_id" sessionId
      writes := [("formcraft_session_id", sessionId)] }
  else
    { tracker := { t with sessionId := found, userId := userId }
      store := store
      writes := [] }

/-! ## Scroll depth and time on page -/

/-- A call `trackEvent(eventType, data)` made by a listener. -/
structure TrackCall where
  eventType : String
  data : EventData
  deriving DecidableEq, Repr

/-- The closure variables of `setupScrollTracking` (lines 211-213) that change:
`maxScroll` and the set `triggeredMarkers`. -/
structure ScrollState where
  maxScroll : Int
  triggeredMarkers : List Int
  deriving DecidableEq, Repr

/-- The array `scrollDepthMarkers` (line 212). -/
def scrollDepthMarkers : List Int := [25, 50, 75, 100]

/-- The state when `setupScrollTracking` returns. -/
def ScrollState.initial : ScrollState := { maxScroll := 0, triggeredMarkers := [] }

/-- The payload of a `scroll_depth` event (lines 225-228). -/
def scrollDepthCall (marker maxScroll : Int) : TrackCall :=
  { eventType := "scroll_depth"
    data := [("depth", .prim (.num marker)), ("maxDepth", .prim (.num maxScroll))] }

/-- The function `trackScrollDepth` (lines 215-231) from the computed
`scrollPercent` on (an integer: the result of `Math.round`).  Returns the new
closure state and the `trackEvent` calls made, in order. -/
def trackScrollDepth (scrollPercent : Int) (st : ScrollState) :
    ScrollState × List TrackCall :=
  let maxScroll := max st.maxScroll scrollPercent
  scrollDepthMarkers.foldl
    (fun acc marker =>
      if scrollPercent ≥ marker ∧ ¬ acc.1.triggeredMarkers.contains marker then
        ({ acc.1 with triggeredMarkers := acc.1.triggeredMarkers ++ [marker] },
          acc.2 ++ [scrollDepthCall marker maxScroll])
      else acc)
    ({ st with maxScroll := maxScroll }, [])

/-- The calls made at each reading of a sequence of `scrollPercent` readings,
one list per reading. -/
def scrollRun : ScrollState → List Int → List (List TrackCall)
  | _, [] => []
  | st, r :: rest => (trackScrollDepth r st).2 :: scrollRun (trackScrollDepth r st).1 rest

/-- Whether a call is a `scroll_depth` event for the given marker. -/
def isDepthCall (marker : Int) (c : TrackCall) : Bool :=
  c.eventType == "scroll_depth" && c.data.lookup "depth" == some (.prim (.num marker))

/-- JavaScript `Math.round(a / b)` for an integer `a` and a positive integer
`b`: the nearest integer, halves rounded up. -/
def roundDiv (a : Int) (b : Nat) : Int :=
  (2 * a + b) / (2 * b)

/-- The `timeSpent` value of the `beforeunload` handler (line 256). -/
def timeSpent (startTime lastActivity : Int) : Int :=
  roundDiv (lastActivity - startTime) 1000

/-- The `trackEvent` call of the `beforeunload` handler (lines 255-262);
`now` is the value of `Date.now()` read there. -/
def timeOnPageCall (startTime lastActivity now : Int) : TrackCall :=
  { eventType := "time_on_page"
    data := [("timeSpent", .prim (.num (timeSpent startTime lastActivity))),
             ("totalTime", .prim (.num (roundDiv (now - startTime) 1000))),
             ("engaged", .prim (.bool (decide (timeSpent startTime lastActivity > 10))))] }

/-- The `engaged` field of a `time_on_page` payload. -/
def engagedFlag (c : TrackCall) : Option JsVal :=
  c.data.lookup "engaged"

/-! ## Click and form listeners -/

/-- The code points of ECMAScript white space and line terminators other than
the range U+2000 to U+200A: the characters removed by `trim()`. -/
def jsWhitespaceCodes : List Nat :=
  [0x9, 0xA, 0xB, 0xC, 0xD, 0x20, 0xA0, 0x1680, 0x2028, 0x2029, 0x202F, 0x205F, 0x3000,
    0xFEFF]

/-- Whether `trim()` removes the character. -/
def isJsWhitespace (c : Char) : Bool :=
  jsWhitespaceCodes.contains c.toNat || (decide (0x2000 ≤ c.toNat) && decide (c.toNat ≤ 0x200A))

/-- JavaScript `s.trim()`. -/
def jsTrim (s : String) : String :=
  String.mk ((s.data.dropWhile isJsWhitespace).reverse.dropWhile isJsWhitespace).reverse

/-- JavaScript `s.substring(0, n)`. -/
def substring0 (s : String) (n : Nat) : String :=
  String.mk (s.data.take n)

/-- Whether a list of characters begins with another. -/
def beginsWith : List Char → List Char → Bool
  | _, [] => true
  | [], _ :: _ => false
  | c :: cs, p :: ps => c == p && beginsWith cs ps

/-- JavaScript `s.startsWith(start)`. -/
def startsWith (s start : String) : Bool :=
  beginsWith s.data start.data

/-- JavaScript `x || null` for a string property that may be undefined. -/
def orNull : Option String → JsVal
  | some s => if s = "" then .prim .null else .prim (.str s)
  | none => .prim .null

/-- JavaScript `x || d` for a string property that may be undefined. -/
def orElse (x : Option String) (d : String) : String :=
  match x with
  | some s => if s = "" then d else s
  | none => d

/-- An HTML element as the listeners see it: its local name (the lower-cased
`tagName`), `id`, class list, content attributes, text content and the DOM
properties read by the listeners (`none` when the element has no such
property). -/
structure Element where
  localName : String
  id : String
  classList : List String
  attrs : List (String × String)
  textContent : String
  href : Option String
  type : Option String
  name : Option String
  value : Option String
  action : Option String
  method : Option String
  deriving DecidableEq, Repr

/-- The property `element.className`: the class list joined by spaces. -/
def Element.className (e : Element) : String :=
  " ".intercalate e.classList

/-- The value of a content attribute, if present. -/
def Element.getAttribute (e : Element) (attr : String) : Option String :=
  e.attrs.lookup attr

/-- The test `matches('[data-track]')`. -/
def hasDataTrack (e : Element) : Bool :=
  (e.getAttribute "data-track").isSome

/-- The test `matches('button, .btn, [role="button"]')`: class names (in a
document that is not in quirks mode) and the value of `role` are compared
case-sensitively. -/
def isButtonLike (e : Element) : Bool :=
  e.localName == "button" || e.classList.contains "btn"
    || e.getAttribute "role" == some "button"

/-- The string with `A` to `Z` replaced by `a` to `z`. -/
def asciiLowerCase (s : String) : String :=
  String.mk (s.data.map fun c =>
    if 65 ≤ c.toNat ∧ c.toNat ≤ 90 then Char.ofNat (c.toNat + 32) else c)

/-- The test `matches('input[type="submit"], button[type="submit"]')`.  In an
HTML document the value of the `type` attribute is compared ASCII
case-insensitively by an attribute selector, so `type="SUBMIT"` matches. -/
def isSubmitControl (e : Element) : Bool :=
  (e.localName == "input" || e.localName == "button")
    && (e.getAttribute "type").map asciiLowerCase == some "submit"

/-- The test `matches('a[href]')`. -/
def isAnchorWithHref (e : Element) : Bool :=
  e.localName == "a" && (e.getAttribute "href").isSome

/-- The test `matches('form')`. -/
def isForm (e : Element) : Bool :=
  e.localName == "form"

/-- The test `matches('input, select, textarea')`. -/
def isFormControl (e : Element) : Bool :=
  e.localName == "input" || e.localName == "select" || e.localName == "textarea"

/-- A click: the target element, its ancestors from the parent up, and the
pointer position. -/
structure ClickEvent where
  target : Element
  ancestors : List Element
  clientX : Int
  clientY : Int
  deriving DecidableEq, Repr

/-- The call `event.target.closest(selector)` for a selector given as a test. -/
def ClickEvent.closest (c : ClickEvent) (test : Element → Bool) : Option Element :=
  (c.target :: c.ancestors).find? test

/-- The `external` value of a `link_click` payload (line 176). -/
def linkExternal (href origin : String) : Bool :=
  !startsWith href origin

/-- The capture-phase click listener for opted-in elements (lines 125-143). -/
def optInClickListener (c : ClickEvent) : List TrackCall :=
  match c.closest hasDataTrack with
  | none => []
  | some element =>
    [{ eventType := "click"
       data := [("element", .prim (.str element.localName)),
                ("id", orNull (some element.id)),
                ("className", orNull (some element.className)),
                ("text", orNull (some (substring0 (jsTrim element.textContent) 100))),
                ("href", orNull element.href),
                ("position", .obj [("x", .num c.clientX), ("y", .num c.clientY)]),
                ("trackingId", .prim (.str ((element.getAttribute "data-track").getD "")))] }]

/-- The click listener that auto-tracks common elements (lines 146-179);
`origin` is `window.location.origin`. -/
def autoClickListener (origin : String) (c : ClickEvent) : List TrackCall :=
  let element := c.target
  (if isButtonLike element then
      [{ eventType := "button_click"
         data := [("element", .prim (.str "button")),
                  ("text", .prim (.str (substring0 (jsTrim element.textContent) 50))),
                  ("type", .prim (.str (orElse element.type "button"))),
                  ("className", .prim (.str element.className))] }]
    else [])
  ++ (if isSubmitControl element then
      match c.closest isForm with
      | some form =>
        [{ eventType := "form_submit_attempt"
           data := [("formId", orNull (some form.id)),
                    ("formAction", orNull form.action),
                    ("formMethod", .prim (.str (orElse form.method "get")))] }]
      | none => []
    else [])
  ++ (if isAnchorWithHref element then
      [{ eventType := "link_click"
         data := [("href", .prim (.str (element.href.getD ""))),
                  ("text", .prim (.str (substring0 (jsTrim element.textContent) 50))),
                  ("external", .prim (.bool (linkExternal (element.href.getD "") origin)))] }]
    else [])

/-- The `trackEvent` calls of one click: the capture-phase listener runs
first, then the auto-tracking listener. -/
def handleClick (origin : String) (c : ClickEvent) : List TrackCall :=
  optInClickListener c ++ autoClickListener origin c

/-- The event types of a list of calls. -/
def eventTypes (calls : List TrackCall) : List String :=
  calls.map TrackCall.eventType

/-- The `change` listener (lines 196-206). -/
def changeListener (element : Element) : List TrackCall :=
  if !isFormControl element then []
  else
    [{ eventType := "form_field_change"
       data := [("fieldType", .prim (.str (orElse element.type element.localName))),
                ("fieldName", orNull element.name),
                ("fieldId", orNull (some element.id)),
                ("hasValue", .prim (.bool (!isFalsy element.value)))] }]

/-- An absolute URL with an authority: scheme, host, optional port and the
rest (path, query and fragment). -/
structure Url where
  scheme : String
  host : String
  port : Option Nat
  rest : String
  deriving DecidableEq, Repr

/-- The origin of a URL as `location.origin` serialises it:
`scheme://host` followed by `:port` when a port is given. -/
def Url.origin (u : Url) : String :=
  u.scheme ++ "://" ++ u.host ++
    (match u.port with
     | some p => ":" ++ toString p
     | none => "")

/-- The serialised URL, as the `href` property returns it. -/
def Url.href (u : Url) : String :=
  u.origin ++ u.rest

/-- An anchor element pointing to the given URL. -/
def anchorTo (u : Url) (text : String) : Element :=
  { localName := "a", id := "", classList := [], attrs := [("href", u.href)],
    textContent := text, href := some u.href, type := none, name := none,
    value := none, action := none, method := none }


/-! ## UI initialisers (`analytics.js`, `form_builder.js`) -/

/-- The document as far as `getElementById` is concerned: its elements. -/
structure Document where
  elements : List Element
  deriving DecidableEq, Repr

/-- The call `document.getElementById(id)`: `none` stands for `null`. -/
def Document.getElementById (d : Document) (id : String) : Option Element :=
  d.elements.find? fun e => e.id == id

/-- An effect of an initialiser on the page. -/
inductive DomEffect where
  /-- the call `target.addEventListener(event, handler)` on the element with
  the given id -/
  | addEventListener (targetId : String) (event : String) (handler : String)
  /-- the call `new Chart(ctx, config)` on the canvas with the given id, with
  the chart type, the labels and the data of its one dataset -/
  | newChart (canvasId : String) (kind : String) (labels : List String) (data : List Int)
  deriving DecidableEq, Repr

/-- How a call of an initialiser ends: the effects it had, in order, and the
error it threw, if any. -/
structure InitResult where
  effects : List DomEffect
  thrown : Option String
  deriving DecidableEq, Repr

/-- A call that returns without having done anything. -/
def InitResult.nothing : InitResult := { effects := [], thrown := none }

/-- The `field_analytics` entry of one field. -/
structure FieldStat where
  response_rate : Int
  deriving DecidableEq, Repr

/-- The analytics data parsed from the page: each member may be missing.  An
object is given by its entries, in the order `Object.keys` lists them; numbers
are passed on unchanged and are taken as integers. -/
structure AnalyticsData where
  submissions_by_date : Option (List (String × Int))
  completion_rate : Option Int
  field_analytics : Option (List (String × FieldStat))
  deriving DecidableEq, Repr

/-- The number of milliseconds in a day. -/
def msPerDay : Int := 86400000

/-- What `initializeSubmissionsChart` reads from `Date`: the clock, the time
zone of the browser and the locale formatting.  Time values are milliseconds
since 1 January 1970 UTC. -/
structure DateEnv where
  /-- The time value of `new Date()`. -/
  now : Int
  /-- The offset of local time from UTC, in milliseconds, in force at a UTC
  time value (`LocalTZA(t, true)` of ECMAScript). -/
  offsetAtUtc : Int → Int
  /-- The offset of local time from UTC, in milliseconds, in force at a local
  time value (`LocalTZA(t, false)` of ECMAScript). -/
  offsetAtLocal : Int → Int
  /-- The label `new Date(date).toLocaleDateString('en-US', ...)` of an ISO
  date. -/
  formatLabel : String → String

/-- The local time value of a UTC time value (`LocalTime(t)` of ECMAScript). -/
def localTime (env : DateEnv) (t : Int) : Int :=
  t + env.offsetAtUtc t

/-- The UTC time value of a local time value (`UTC(t)` of ECMAScript). -/
def utcTime (env : DateEnv) (t : Int) : Int :=
  t - env.offsetAtLocal t

/-- The day number of a time value (`Day(t)` of ECMAScript): whole days since
1 January 1970. -/
def dayOf (t : Int) : Int :=
  t / msPerDay

/-- The time value of `date` after `date = new Date(today)` and
`date.setDate(date.getDate() - i)`: `getDate` and `setDate` work on the local
time, so the local time value moves back by `i` whole days with the same time
of day, and the result is converted back to UTC. -/
def timeAfterSetDate (env : DateEnv) (i : Nat) : Int :=
  utcTime env (localTime env env.now - i * msPerDay)

/-- The decimal digits of a number, padded with zeros on the left to the given
width. -/
def padZeros (width n : Nat) : String :=
  String.mk (List.replicate (width - (toString n).length) '0') ++ toString n

/-- The date part `YYYY-MM-DD` of `toISOString()` for a day number, for the
years 0 to 9999 (proleptic Gregorian calendar). -/
def isoDate (day : Int) : String :=
  let z := day + 719468
  let era := z / 146097
  let doe := z % 146097
  let yoe := (doe - doe / 1460 + doe / 36524 - doe / 146096) / 365
  let doy := doe - (365 * yoe + yoe / 4 - yoe / 100)
  let mp := (5 * doy + 2) / 153
  let d := doy - (153 * mp + 2) / 5 + 1
  let m := if mp < 10 then mp + 3 else mp - 9
  let y := yoe + era * 400 + (if m ≤ 2 then 1 else 0)
  padZeros 4 y.toNat ++ "-" ++ padZeros 2 m.toNat ++ "-" ++ padZeros 2 d.toNat

/-- The string `date.toISOString().split('T')[0]` after
`date = new Date(today); date.setDate(date.getDate() - i)`: `toISOString`
gives the UTC date of the time value. -/
def DateEnv.isoDaysAgo (env : DateEnv) (i : Nat) : String :=
  isoDate (dayOf (timeAfterSetDate env i))

/-- The UTF-16 code units of a JavaScript string. -/
def utf16CodeUnits (s : String) : List Nat :=
  s.data.flatMap fun c =>
    if c.toNat < 0x10000 then [c.toNat]
    else [0xD800 + (c.toNat - 0x10000) / 0x400, 0xDC00 + (c.toNat - 0x10000) % 0x400]

/-- The lexicographic order on sequences of code units. -/
def codeUnitsLe : List Nat → List Nat → Bool
  | [], _ => true
  | _ :: _, [] => false
  | a :: as, b :: bs => decide (a < b) || (a == b && codeUnitsLe as bs)

/-- The order `sort()` uses without a comparator: strings compared by their
UTF-16 code units. -/
def sortOrder (a b : String) : Prop :=
  codeUnitsLe (utf16CodeUnits a) (utf16CodeUnits b) = true

/-- The array method `sort()` on strings: ascending order of code units. -/
def sortStrings (l : List String) : List String :=
  l.insertionSort fun a b => codeUnitsLe (utf16CodeUnits a) (utf16CodeUnits b) = true

/-- The arrays `dates` and `counts` of `initializeSubmissionsChart` as they
stand when the chart is created (lines 19-32). -/
def submissionsSeries (env : DateEnv) (data : AnalyticsData) : List String × List Int :=
  let submissionsByDate := data.submissions_by_date.getD []
  let dates := sortStrings (submissionsByDate.map Prod.fst)
  let counts := dates.map fun date => (submissionsByDate.lookup date).getD 0
  if dates.length = 0 then
    [6, 5, 4, 3, 2, 1, 0].foldl
      (fun (acc : List String × List Int) i => (acc.1 ++ [env.isoDaysAgo i], acc.2 ++ [0]))
      (dates, counts)
  else (dates, counts)

/-- The function `initializeSubmissionsChart` (lines 14-90). -/
def initializeSubmissionsChart (env : DateEnv) (d : Document) (data : AnalyticsData) :
    InitResult :=
  match d.getElementById "submissionsChart" with
  | none => InitResult.nothing
  | some _ =>
    let series := submissionsSeries env data
    { effects := [.newChart "submissionsChart" "line" (series.1.map env.formatLabel) series.2]
      thrown := none }

/-- The function `initializePerformanceChart` (lines 92-138). -/
def initializePerformanceChart (d : Document) (data : AnalyticsData) : InitResult :=
  match d.getElementById "performanceChart" with
  | none => InitResult.nothing
  | some _ =>
    let completionRate := data.completion_rate.getD 0
    let abandonmentRate := 100 - completionRate
    { effects := [.newChart "performanceChart" "doughnut" ["Completed", "Abandoned"]
                    [completionRate, abandonmentRate]]
      thrown := none }

/-- The function `initializeFieldAnalyticsChart` (lines 141-190). -/
def initializeFieldAnalyticsChart (d : Document) (data : AnalyticsData) : InitResult :=
  let fieldAnalytics := data.field_analytics.getD []
  let fieldNames := fieldAnalytics.map Prod.fst
  if fieldNames.length = 0 then InitResult.nothing
  else
    match d.getElementById "fieldAnalyticsChart" with
    | none => InitResult.nothing
    | some _ =>
      let responseRates := fieldNames.map fun name =>
        ((fieldAnalytics.lookup name).map FieldStat.response_rate).getD 0
      { effects := [.newChart "fieldAnalyticsChart" "bar" fieldNames responseRates]
        thrown := none }

/-- The function `initializeSortable` of `form_builder.js` (lines 35-42). -/
def initializeSortable (d : Document) : InitResult :=
  match d.getElementById "formBuilder" with
  | some _ =>
    { effects := [.addEventListener "formBuilder" "dragover" "handleDragOver",
                  .addEventListener "formBuilder" "drop" "handleDrop"]
      thrown := none }
  | none => InitResult.nothing

/-- The error thrown by a method call on `null`. -/
def nullTypeError : String :=
  "TypeError: Cannot read properties of null (reading 'addEventListener')"

/-- The statement `document.getElementById(id).addEventListener(event, handler)`
run after the effects `sofar`, followed by `rest` when it does not throw. -/
def addListenerById (d : Document) (id event handler : String) (sofar : List DomEffect)
    (rest : List DomEffect → InitResult) : InitResult :=
  match d.getElementById id with
  | none => { effects := sofar, thrown := some nullTypeError }
  | some _ => rest (sofar ++ [.addEventListener id event handler])

/-- The `DOMContentLoaded` listener of `form_builder.js` (lines 12-33). -/
def formBuilderInit (d : Document) : InitResult :=
  let sortable := initializeSortable d
  addListenerById d "formTitle" "input" "updateFormTitle" sortable.effects fun e1 =>
  addListenerById d "formDescription" "input" "updateFormDescription" e1 fun e2 =>
  addListenerById d "fieldLabel" "input" "generateFieldName" e2 fun e3 =>
  addListenerById d "fieldName" "input" "markManuallyEdited" e3 fun e4 =>
  { effects := e4, thrown := none }

/-! ## The form builder (`form_builder.js`) -/

/-- A field object of `currentForm.fields` (lines 64-72). -/
structure Field where
  id : String
  type : String
  label : String
  name : String
  placeholder : String
  required : Bool
  options : List String
  deriving DecidableEq, Repr

/-- The object `currentForm` (lines 2-6). -/
structure Form where
  title : String
  description : String
  fields : List Field
  deriving DecidableEq, Repr

/-- The module variables `currentForm` and `fieldCounter`. -/
structure Builder where
  currentForm : Form
  fieldCounter : Nat
  deriving DecidableEq, Repr

/-- The module variables when the script is loaded (lines 2-8). -/
def Builder.initial : Builder :=
  { currentForm := { title := "Untitled Form", description := "", fields := [] }
    fieldCounter := 0 }

/-- The table `typeNames` of `getFieldTypeDisplayName` (lines 287-296). -/
def typeNames : List (String × String) :=
  [("text", "Text Input"), ("email", "Email Input"), ("textarea", "Text Area"),
   ("select", "Dropdown"), ("radio", "Radio Buttons"), ("checkbox", "Checkboxes"),
   ("number", "Number Input"), ("date", "Date Input")]

/-- The function `getFieldTypeDisplayName` (lines 286-298), for field types
that are not members inherited by every object. -/
def getFieldTypeDisplayName (fieldType : String) : String :=
  orElse (typeNames.lookup fieldType) fieldType

/-- The test `['select', 'radio', 'checkbox'].includes(fieldType)`. -/
def hasOptions (fieldType : String) : Bool :=
  ["select", "radio", "checkbox"].contains fieldType

/-- The string `field_${k}` of the template literals on lines 65, 68 and 182. -/
def fieldId (k : Nat) : String :=
  "field_" ++ toString k

/-- The function `addField` (lines 63-84) on the module variables; rendering
and the delayed `editField` call do not change them. -/
def addField (fieldType : String) (b : Builder) : Builder :=
  let fieldCounter := b.fieldCounter + 1
  let field : Field :=
    { id := fieldId fieldCounter
      type := fieldType
      label := getFieldTypeDisplayName fieldType ++ " Field"
      name := fieldId fieldCounter
      placeholder := ""
      required := false
      options := if hasOptions fieldType then ["Option 1", "Option 2"] else [] }
  { currentForm := { b.currentForm with fields := b.currentForm.fields ++ [field] }
    fieldCounter := fieldCounter }

/-- The function `removeField` (lines 171-174) on the module variables. -/
def removeField (id : String) (b : Builder) : Builder :=
  { b with currentForm :=
      { b.currentForm with fields := b.currentForm.fields.filter fun f => f.id != id } }

/-- The array method `splice(index, 0, x)`: insert `x` at position `index`. -/
def spliceInsert (l : List Field) (index : Nat) (x : Field) : List Field :=
  l.take index ++ [x] ++ l.drop index

/-- The function `duplicateField` (lines 176-190) on the module variables. -/
def duplicateField (id : String) (b : Builder) : Builder :=
  match b.currentForm.fields.find? fun f => f.id == id with
  | none => b
  | some field =>
    let fieldCounter := b.fieldCounter + 1
    let duplicatedField : Field :=
      { field with
        id := fieldId fieldCounter
        name := field.name ++ "_copy"
        label := field.label ++ " (Copy)" }
    let index := b.currentForm.fields.findIdx fun f => f.id == id
    { currentForm := { b.currentForm with
        fields := spliceInsert b.currentForm.fields (index + 1) duplicatedField }
      fieldCounter := fieldCounter }

/-- A call of one of the three field operations. -/
inductive BuilderOp where
  | add (fieldType : String)
  | duplicate (id : String)
  | remove (id : String)
  deriving DecidableEq, Repr

/-- The effect of one call. -/
def applyOp (b : Builder) : BuilderOp → Builder
  | .add fieldType => addField fieldType b
  | .duplicate id => duplicateField id b
  | .remove id => removeField id b

/-- A sequence of calls, left to right. -/
def applyOps (b : Builder) (ops : List BuilderOp) : Builder :=
  ops.foldl applyOp b

/-- Whether an operation is an `addField` or `duplicateField` call. -/
def BuilderOp.addsField : BuilderOp → Bool
  | .add _ => true
  | .duplicate _ => true
  | .remove _ => false

/-- The object returned by `validateFormConfig`. -/
structure Validation where
  valid : Bool
  message : Option String
  deriving DecidableEq, Repr

/-- The test `!s.trim()`. -/
def isBlank (s : String) : Bool :=
  jsTrim s == ""

/-- The message of the options check (line 462). -/
def optionsMessage (label : String) : String :=
  "Field \"" ++ label ++ "\" must have at least one option."

/-- The `for` loop of `validateFormConfig` (lines 452-464) with the final
`return` (line 466). -/
def validateFields : List Field → Validation
  | [] => { valid := true, message := none }
  | field :: rest =>
    if isBlank field.label then
      { valid := false, message := some "All fields must have a label." }
    else if isBlank field.name then
      { valid := false, message := some "All fields must have a name." }
    else if hasOptions field.type && field.options.length == 0 then
      { valid := false, message := some (optionsMessage field.label) }
    else validateFields rest

/-- The function `validateFormConfig` (lines 447-467). -/
def validateFormConfig (form : Form) : Validation :=
  if isBlank form.title then
    { valid := false, message := some "Please enter a form title." }
  else validateFields form.fields

/-- The checks named by the specification, in its order: the title, then for
each field in list order its label, its name and its options; each check is
given as whether it passes and the message when it fails. -/
def specChecks (form : Form) : List (Bool × String) :=
  (!isBlank form.title, "Please enter a form title.")
    :: form.fields.flatMap fun field =>
        [(!isBlank field.label, "All fields must have a label."),
         (!isBlank field.name, "All fields must have a name."),
         (!hasOptions field.type || decide (1 ≤ field.options.length),
           optionsMessage field.label)]

/-- The result the specification gives: valid when every check passes,
otherwise the message of the first failing check. -/
def specValidation (form : Form) : Validation :=
  match (specChecks form).find? fun c => !c.1 with
  | none => { valid := true, message := none }
  | some c => { valid := false, message := some c.2 }


/-- Whether the character class `[a-zA-Z0-9]` contains the character. -/
def isAsciiAlnum (c : Char) : Bool :=
  (decide (97 ≤ c.toNat) && decide (c.toNat ≤ 122))
    || (decide (65 ≤ c.toNat) && decide (c.toNat ≤ 90))
    || (decide (48 ≤ c.toNat) && decide (c.toNat ≤ 57))

/-- Whether the character is one of `A` to `Z`. -/
def isUpperAscii (c : Char) : Bool :=
  decide (65 ≤ c.toNat) && decide (c.toNat ≤ 90)

/-- Whether the character is one of `a` to `z`, `0` to `9` or `_`. -/
def isNameChar (c : Char) : Bool :=
  (decide (97 ≤ c.toNat) && decide (c.toNat ≤ 122))
    || (decide (48 ≤ c.toNat) && decide (c.toNat ≤ 57))
    || c == '_'

/-- The number of UTF-16 code units of a character in a JavaScript string. -/
def utf16Units (c : Char) : Nat :=
  if c.toNat < 0x10000 then 1 else 2

/-- The step `replace(/[^a-zA-Z0-9]/g, '_')`: every code unit outside the
class becomes an underscore. -/
def replaceNonAlnum (l : List Char) : List Char :=
  l.flatMap fun c => if isAsciiAlnum c then [c] else List.replicate (utf16Units c) '_'

/-- The step `replace(/_{2,}/g, '_')`: every run of two or more underscores
becomes one underscore. -/
def collapseUnderscores : List Char → List Char
  | [] => []
  | [c] => [c]
  | c :: d :: rest =>
    if c = '_' ∧ d = '_' then collapseUnderscores (d :: rest)
    else c :: collapseUnderscores (d :: rest)

/-- The removal of one underscore at the start, if there is one. -/
def dropLeadingUnderscore : List Char → List Char
  | [] => []
  | c :: rest => if c = '_' then rest else c :: rest

/-- The step `replace(/^_|_$/g, '')`: one underscore at the start and one at
the end are removed. -/
def stripUnderscores (l : List Char) : List Char :=
  (dropLeadingUnderscore (dropLeadingUnderscore l).reverse).reverse

/-- The function `sanitizeFieldName` (lines 300-305); `toLowerCase` is the
string method of that name. -/
def sanitizeFieldName (toLowerCase : String → String) (name : String) : String :=
  let cleaned := String.mk
    (stripUnderscores (collapseUnderscores (replaceNonAlnum (toLowerCase name).data)))
  if cleaned = "" then "field" else cleaned

/-- What the proofs use of `toLowerCase`: its result never contains one of `A`
to `Z`, and it leaves a string of the characters `a` to `z`, `0` to `9` and `_`
as it is. -/
def LowerCaseLaws (toLowerCase : String → String) : Prop :=
  (∀ s : String, ∀ c ∈ (toLowerCase s).data, isUpperAscii c = false)
    ∧ ∀ s : String, (∀ c ∈ s.data, isNameChar c = true) → toLowerCase s = s

/-- The lower-case form of one character, for the characters whose lower-case
form contains an ASCII character: `A` to `Z`, the Kelvin sign (U+212A) and the
capital I with dot above (U+0130); every other character is left as it is. -/
def lowerChar (c : Char) : List Char :=
  if isUpperAscii c then [Char.ofNat (c.toNat + 32)]
  else if c.toNat = 0x212A then ['k']
  else if c.toNat = 0x130 then ['i', Char.ofNat 0x307]
  else [c]

/-- A `toLowerCase` that is exact on the characters listed at `lowerChar`;
the characters it leaves alone have no ASCII character in their lower-case
form. -/
def jsToLowerCase (s : String) : String :=
  String.mk (s.data.flatMap lowerChar)

/-- The relation between neighbours in a string without two consecutive
underscores. -/
def NotBothUnderscore (a b : Char) : Prop :=
  ¬ (a = '_' ∧ b = '_')


/-- The shape of a sanitised field name: not empty, only the characters `a` to
`z`, `0` to `9` and `_`, no two underscores in a row, no underscore at the start
or at the end. -/
def IsSanitized (l : List Char) : Prop :=
  l ≠ [] ∧ (∀ c ∈ l, isNameChar c = true) ∧ l.Chain' NotBothUnderscore
    ∧ l.head? ≠ some '_' ∧ l.getLast? ≠ some '_'


/-! ## Sample inputs -/

/-- A device snapshot used in examples. -/
def sampleDevice : DeviceInfo :=
  { userAgent := "UA", language := "en", platform := "Linux", screenWidth := 1920,
    screenHeight := 1080, colorDepth := 24, viewportWidth := 1280, viewportHeight := 720,
    timezone := "UTC", referrer := "" }

/-- The environment of the `n`-th sample `trackEvent` call. -/
def sampleEnv (n : Nat) : Env :=
  { now := n, random36 := "0.abcdefghijk", isoTime := "T", href := "http://h/p",
    pathname := "/p", device := sampleDevice, flushTime := "F" }

/-- The `n`-th sample `trackEvent` call. -/
def sampleInput (n : Nat) : TrackInput :=
  { eventType := "click", data := [("n", .prim (.num n))], env := sampleEnv n }

/-- The event built by the `n`-th sample call in a session `"s"` without user. -/
def sampleEvent (n : Nat) : Event :=
  buildEvent (some "s") none (sampleEnv n) "click" [("n", .prim (.num n))]

/-- A rejected request. -/
def networkError : FetchOutcome := .rejected "TypeError: Failed to fetch"

/-- A response with a success status. -/
def okResponse : FetchOutcome := .response 200 "OK"

/-- A run with two overlapping flushes, one failing and retried, that ends
with an empty queue and nothing in flight. -/
def overlapRun : List Action :=
  [ .track "click" [] (sampleEnv 1), .flush "F1", .track "click" [] (sampleEnv 2),
    .flush "F2", .settle 0 networkError, .settle 0 okResponse, .flush "F3",
    .settle 0 okResponse ]

/-- Ten sample `trackEvent` calls, numbered 1 to 10. -/
def tenInputs : List TrackInput :=
  (List.range 10).map fun n => sampleInput (n + 1)

/-- A world of session `"s"` whose queue holds the given events, with nothing
in flight. -/
def queuedWorld (q : List Event) : World :=
  { tracker := { eventQueue := q, sessionId := some "s", userId := none }
    inflight := [], delivered := [] }

/-- Two overlapping flushes of one event each, both pending. -/
def twoPending : List Action :=
  [ .track "click" [("n", .prim (.num 1))] (sampleEnv 1), .flush "F1",
    .track "click" [("n", .prim (.num 2))] (sampleEnv 2), .flush "F2" ]

/-- The world in which the batch `[e1]` has been drained and its request is
pending. -/
def pendingOne : World :=
  run TRACKING_CONFIG (queuedWorld [sampleEvent 1]) [.flush "F1"]

/-- The request holding the batch `[e1]`. -/
def failedRequest : Request :=
  { endpoint := "/api/track", events := [sampleEvent 1],
    requestMeta := { timestamp := "F1", sessionId := some "s" } }

/-- The request of the retry flush, holding `[e1, e2]`. -/
def retryRequest : Request :=
  { endpoint := "/api/track", events := [sampleEvent 1, sampleEvent 2],
    requestMeta := { timestamp := "F2", sessionId := some "s" } }

/-- The second sample `trackEvent` call as an action. -/
def trackTwo : Action :=
  .track "click" [("n", .prim (.num 2))] (sampleEnv 2)

/-- A first page load of a session: empty storage, no signed-in user. -/
def firstLoad : SessionEnv :=
  { now := 1700000000000, random36 := "0.4fzyo82mvyr", userElement := none }

/-- The module variables of a freshly loaded script. -/
def freshTracker : Tracker :=
  { eventQueue := [], sessionId := none, userId := none }

/-- The origin of the page in the link examples. -/
def pageOrigin : String := "https://example.com"

/-- A link to another host whose name begins with the page's host name. -/
def lookalikeLink : Url :=
  { scheme := "https", host := "example.com.evil.org", port := none, rest := "/page" }

/-- A click on an anchor pointing to `lookalikeLink`. -/
def lookalikeClick : ClickEvent :=
  { target := anchorTo lookalikeLink "Offer", ancestors := [], clientX := 10, clientY := 20 }

/-- A button opted in through `data-track`. -/
def trackedButton : Element :=
  { localName := "button", id := "save", classList := ["btn"],
    attrs := [("data-track", "save-button")], textContent := " Save ", href := none,
    type := some "submit", name := none, value := none, action := none, method := none }

/-- A click on `trackedButton`. -/
def trackedButtonClick : ClickEvent :=
  { target := trackedButton, ancestors := [], clientX := 3, clientY := 4 }

/-- A text input holding the given value. -/
def emailInput (value : String) : Element :=
  { localName := "input", id := "email", classList := [], attrs := [("type", "email")],
    textContent := "", href := none, type := some "email", name := some "email",
    value := some value, action := none, method := none }

/-- An element carrying only an id. -/
def bareElement (localName id : String) : Element :=
  { localName := localName, id := id, classList := [], attrs := [], textContent := "",
    href := none, type := none, name := none, value := none, action := none,
    method := none }

/-- A page that has the builder container but none of the form inputs. -/
def builderOnlyPage : Document :=
  { elements := [bareElement "div" "formBuilder"] }

/-- A configuration with tracking switched off and a batch size of one. -/
def disabledConfig : Config :=
  { TRACKING_CONFIG with enabled := false, batchSize := 1 }


/-- A text field with the given label and name. -/
def textField (label name : String) : Field :=
  { id := "field_1", type := "text", label := label, name := name, placeholder := "",
    required := false, options := [] }

/-- A dropdown without options. -/
def emptySelect : Field :=
  { id := "field_2", type := "select", label := "Colour", name := "colour",
    placeholder := "", required := false, options := [] }

/-- A form with a valid text field followed by a dropdown without options. -/
def contactForm : Form :=
  { title := "Contact", description := "", fields := [textField "Name" "name", emptySelect] }


/-- A date environment in which it is noon UTC on 20 November 2024, local
time is UTC and labels are the ISO dates themselves. -/
def novemberEnv : DateEnv :=
  { now := 1732104000000, offsetAtUtc := fun _ => 0, offsetAtLocal := fun _ => 0,
    formatLabel := fun date => date }

/-- The time value of 27 October 2024, 01:00 UTC, when the United Kingdom
went from summer time (UTC+1) back to UTC. -/
def londonTransition : Int := 1729990800000

/-- A browser in the time zone Europe/London at 00:30 local time (UTC) on
28 October 2024, the day after the end of summer time; labels are the ISO
dates themselves. -/
def londonEnv : DateEnv :=
  { now := 1730075400000
    offsetAtUtc := fun t => if t < londonTransition then 3600000 else 0
    offsetAtLocal := fun t => if t < londonTransition + 3600000 then 3600000 else 0
    formatLabel := fun date => date }

/-- A click on a submit input whose `type` attribute is written in capitals,
inside a form. -/
def upperSubmitClick : ClickEvent :=
  { target :=
      { localName := "input", id := "", classList := [], attrs := [("type", "SUBMIT")],
        textContent := "", href := none, type := some "submit", name := none,
        value := some "Send", action := none, method := none }
    ancestors :=
      [{ localName := "form", id := "contact", classList := [], attrs := [],
         textContent := "", href := none, type := none, name := none, value := none,
         action := some "https://example.com/send", method := some "post" }]
    clientX := 1, clientY := 2 }

/-- Analytics data without a `submissions_by_date` member. -/
def noSubmissions : AnalyticsData :=
  { submissions_by_date := none, completion_rate := none, field_analytics := none }

/-- Analytics data with submissions on two days, listed latest first. -/
def twoDays : AnalyticsData :=
  { submissions_by_date := some [("2024-11-19", 4), ("2024-11-03", 1)],
    completion_rate := some 80, field_analytics := none }


/-- The number denoted by a list of decimal digit characters, read after the
digits already accumulated in `acc`. -/
def decodeDigits (acc : Nat) (l : List Char) : Nat :=
  l.foldl (fun a c => a * 10 + (c.toNat - 48)) acc

/-- Three calls that duplicate the same field twice. -/
def duplicateTwice : List BuilderOp :=
  [.add "text", .duplicate "field_1", .duplicate "field_1"]


/-- The invariant of the field list: the ids are pairwise distinct and each
is `field_k` for some `k` between 1 and `fieldCounter`. -/
def FieldIdsOk (b : Builder) : Prop :=
  (b.currentForm.fields.map Field.id).Nodup
    ∧ ∀ f ∈ b.currentForm.fields, ∃ k, 1 ≤ k ∧ k ≤ b.fieldCounter ∧ f.id = fieldId k


/-- A builder with a text field and a dropdown, as left by two `addField`
calls. -/
def twoFieldBuilder : Builder :=
  applyOps Builder.initial [.add "text", .add "select"]


/-! ## Basic facts about the transition system -/

theorem flushTryBody_ok_iff (o : FetchOutcome) :
    flushTryBody o = .ok () ↔ o.ok = true := by
  cases o with
  | rejected e => simp [flushTryBody, FetchOutcome.ok]
  | response st txt =>
    by_cases h : (FetchOutcome.response st txt).ok = true
    · simp [flushTryBody, h]
    · simp [flushTryBody, h]

theorem flushEventsResume_queue (t : Tracker) (b : List Event) (o : FetchOutcome) :
    (flushEventsResume t b o).tracker.eventQueue
      = if o.ok then t.eventQueue else b ++ t.eventQueue := by
  by_cases h : o.ok = true
  · have h1 := (flushTryBody_ok_iff o).2 h
    simp [flushEventsResume, h1, h]
  · have h1 : flushTryBody o ≠ .ok () := fun hh => h ((flushTryBody_ok_iff o).1 hh)
    unfold flushEventsResume
    cases hb : flushTryBody o with
    | ok u => cases u; exact absurd hb h1
    | error e => simp [h]

theorem flushEventsResume_ids (t : Tracker) (b : List Event) (o : FetchOutcome) :
    (flushEventsResume t b o).tracker.sessionId = t.sessionId
      ∧ (flushEventsResume t b o).tracker.userId = t.userId := by
  unfold flushEventsResume
  cases flushTryBody o with
  | ok u => cases u; simp
  | error e => simp

theorem flushEvents_ids (cfg : Config) (iso : String) (t : Tracker) :
    (flushEvents cfg iso t).1.sessionId = t.sessionId
      ∧ (flushEvents cfg iso t).1.userId = t.userId := by
  unfold flushEvents
  split <;> simp

theorem trackEvent_disabled (cfg : Config) (env : Env) (t : Tracker) (ty : String)
    (d : EventData) (h : cfg.enabled = false) :
    trackEvent cfg env t ty d = (t, none) := by
  simp [trackEvent, h]

theorem trackEvent_flush (cfg : Config) (env : Env) (t : Tracker) (ty : String)
    (d : EventData) (h : cfg.enabled = true)
    (hb : cfg.batchSize ≤ t.eventQueue.length + 1) :
    trackEvent cfg env t ty d
      = ({ t with eventQueue := [] },
          some { endpoint := cfg.endpoint
                 events := t.eventQueue ++ [buildEvent t.sessionId t.userId env ty d]
                 requestMeta := { timestamp := env.flushTime, sessionId := t.sessionId } }) := by
  simp [trackEvent, h, hb, flushEvents]

theorem trackEvent_queue (cfg : Config) (env : Env) (t : Tracker) (ty : String)
    (d : EventData) (h : cfg.enabled = true)
    (hb : t.eventQueue.length + 1 < cfg.batchSize) :
    trackEvent cfg env t ty d
      = ({ t with eventQueue := t.eventQueue ++ [buildEvent t.sessionId t.userId env ty d] },
          none) := by
  have hb2 : ¬ cfg.batchSize ≤ t.eventQueue.length + 1 := by omega
  simp [trackEvent, h, hb2]

theorem trackEvent_ids (cfg : Config) (env : Env) (t : Tracker) (ty : String)
    (d : EventData) :
    (trackEvent cfg env t ty d).1.sessionId = t.sessionId
      ∧ (trackEvent cfg env t ty d).1.userId = t.userId := by
  cases h : cfg.enabled with
  | false => simp [trackEvent_disabled cfg env t ty d h]
  | true =>
    by_cases hb : cfg.batchSize ≤ t.eventQueue.length + 1
    · simp [trackEvent_flush cfg env t ty d h hb]
    · simp [trackEvent_queue cfg env t ty d h (by omega)]

theorem step_settle_none (cfg : Config) (w : World) (i : Nat) (o : FetchOutcome)
    (h : w.inflight[i]? = none) : step cfg w (.settle i o) = w := by
  simp [step, h]

theorem step_settle_some (cfg : Config) (w : World) (i : Nat) (o : FetchOutcome)
    (req : Request) (h : w.inflight[i]? = some req) :
    step cfg w (.settle i o)
      = { tracker := (flushEventsResume w.tracker req.events o).tracker
          inflight := w.inflight.eraseIdx i
          delivered := if o.ok then w.delivered ++ req.events else w.delivered } := by
  simp [step, h]

theorem step_ids (cfg : Config) (w : World) (a : Action) :
    (step cfg w a).tracker.sessionId = w.tracker.sessionId
      ∧ (step cfg w a).tracker.userId = w.tracker.userId := by
  cases a with
  | track ty d env => simpa [step] using trackEvent_ids cfg env w.tracker ty d
  | flush iso => simpa [step] using flushEvents_ids cfg iso w.tracker
  | settle i o =>
    cases h : w.inflight[i]? with
    | none => simp [step_settle_none cfg w i o h]
    | some req =>
      simpa [step_settle_some cfg w i o req h]
        using flushEventsResume_ids w.tracker req.events o

/-- Draining moves the queue into a request: queue plus request events is
what the queue held. -/
theorem flushEvents_conserves (cfg : Config) (iso : String) (t : Tracker) :
    (flushEvents cfg iso t).1.eventQueue
        ++ ((flushEvents cfg iso t).2.toList.map Request.events).flatten
      = t.eventQueue := by
  unfold flushEvents
  split
  · simp
  · simp

theorem flatten_eraseIdx_perm (l : List Request) (i : Nat) (req : Request)
    (h : l[i]? = some req) :
    ((l.map Request.events).flatten : Multiset Event)
      = (req.events : Multiset Event)
          + (((l.eraseIdx i).map Request.events).flatten : Multiset Event) := by
  induction l generalizing i with
  | nil => simp at h
  | cons x xs ih =>
    cases i with
    | zero =>
      simp only [List.getElem?_cons_zero, Option.some.injEq] at h
      subst h
      simp
    | succ j =>
      simp only [List.getElem?_cons_succ] at h
      have := ih j h
      simp only [List.map_cons, List.flatten_cons, List.eraseIdx_cons_succ,
        ← Multiset.coe_add] at this ⊢
      rw [this]
      abel

/-- One step adds exactly the event built by a `trackEvent` call (nothing for
the other actions) to what the system holds or has delivered. -/
theorem heldEvents_step (cfg : Config) (w : World) (a : Action) :
    heldEvents (step cfg w a)
      = heldEvents w
          + (trackedEvents cfg w.tracker.sessionId w.tracker.userId [a] : Multiset Event) := by
  cases a with
  | track ty d env =>
    cases h : cfg.enabled with
    | false =>
      simp [step, trackEvent_disabled cfg env w.tracker ty d h, trackedEvents, h]
    | true =>
      by_cases hb : cfg.batchSize ≤ w.tracker.eventQueue.length + 1
      · simp only [step, trackEvent_flush cfg env w.tracker ty d h hb, heldEvents,
          inflightEvents, trackedEvents, h, if_true, List.append_nil, Option.toList,
          List.map_append, List.flatten_append, List.map_cons, List.map_nil,
          List.flatten_cons, List.flatten_nil, ← Multiset.coe_add, Multiset.coe_nil]
        abel
      · simp only [step, trackEvent_queue cfg env w.tracker ty d h (by omega), heldEvents,
          inflightEvents, trackedEvents, h, if_true, List.append_nil, Option.toList,
          List.map_nil, List.flatten_nil, ← Multiset.coe_add]
        abel
  | flush iso =>
    have hc := flushEvents_conserves cfg iso w.tracker
    simp only [step, heldEvents, inflightEvents, trackedEvents, List.map_append,
      List.flatten_append, Multiset.coe_nil, add_zero]
    conv_rhs => rw [← hc]
    simp only [← Multiset.coe_add]
    abel
  | settle i o =>
    cases h : w.inflight[i]? with
    | none => simp [step_settle_none cfg w i o h, trackedEvents]
    | some req =>
      have hp := flatten_eraseIdx_perm w.inflight i req h
      simp only [step_settle_some cfg w i o req h, heldEvents, inflightEvents,
        trackedEvents, flushEventsResume_queue, Multiset.coe_nil, add_zero]
      rw [hp]
      cases o.ok with
      | true =>
        simp only [if_true, ← Multiset.coe_add]
        abel
      | false =>
        simp only [Bool.false_eq_true, if_false, ← Multiset.coe_add]
        abel

theorem trackedEvents_cons (cfg : Config) (sid uid : Option String) (a : Action)
    (rest : List Action) :
    trackedEvents cfg sid uid (a :: rest)
      = trackedEvents cfg sid uid [a] ++ trackedEvents cfg sid uid rest := by
  cases a <;> simp [trackedEvents]

/-- Conservation along a run from any world. -/
theorem heldEvents_run (cfg : Config) (acts : List Action) (w : World) :
    heldEvents (run cfg w acts)
      = heldEvents w
          + (trackedEvents cfg w.tracker.sessionId w.tracker.userId acts : Multiset Event) := by
  induction acts generalizing w with
  | nil => simp [run, trackedEvents]
  | cons a rest ih =>
    have hs := step_ids cfg w a
    have := ih (step cfg w a)
    simp only [run, List.foldl_cons] at this ⊢
    rw [this, heldEvents_step, hs.1, hs.2, trackedEvents_cons cfg _ _ a rest,
      ← Multiset.coe_add, add_assoc]

theorem run_append (cfg : Config) (w : World) (xs ys : List Action) :
    run cfg w (xs ++ ys) = run cfg (run cfg w xs) ys := by
  simp [run, List.foldl_append]

theorem run_cons (cfg : Config) (w : World) (a : Action) (rest : List Action) :
    run cfg w (a :: rest) = run cfg (step cfg w a) rest := rfl

theorem trackedEvents_append (cfg : Config) (sid uid : Option String)
    (xs ys : List Action) :
    trackedEvents cfg sid uid (xs ++ ys)
      = trackedEvents cfg sid uid xs ++ trackedEvents cfg sid uid ys := by
  induction xs with
  | nil => simp [trackedEvents]
  | cons a rest ih =>
    rw [List.cons_append, trackedEvents_cons, ih, trackedEvents_cons cfg sid uid a rest,
      List.append_assoc]

theorem trackedEvents_trackActs (cfg : Config) (sid uid : Option String)
    (ins : List TrackInput) :
    trackedEvents cfg sid uid (trackActs ins)
      = if cfg.enabled then builtEvents sid uid ins else [] := by
  induction ins with
  | nil => simp [trackActs, trackedEvents, builtEvents]
  | cons x xs ih =>
    have : trackActs (x :: xs) = Action.track x.eventType x.data x.env :: trackActs xs := rfl
    rw [this, trackedEvents, ih]
    cases cfg.enabled <;> simp [builtEvents]

/-- With tracking disabled a run of `trackEvent` calls changes nothing. -/
theorem run_tracks_disabled (cfg : Config) (h : cfg.enabled = false)
    (ins : List TrackInput) (w : World) : run cfg w (trackActs ins) = w := by
  induction ins with
  | nil => rfl
  | cons x xs ih =>
    have : trackActs (x :: xs) = Action.track x.eventType x.data x.env :: trackActs xs := rfl
    rw [this, run_cons]
    have hs : step cfg w (Action.track x.eventType x.data x.env) = w := by
      simp [step, trackEvent_disabled cfg x.env w.tracker x.eventType x.data h]
    rw [hs, ih]

/-- Below the batch size a run of `trackEvent` calls only appends to the
queue. -/
theorem run_tracks_below (cfg : Config) (h : cfg.enabled = true)
    (ins : List TrackInput) (w : World)
    (hlen : w.tracker.eventQueue.length + ins.length < cfg.batchSize) :
    run cfg w (trackActs ins)
      = { w with tracker := { w.tracker with
            eventQueue := w.tracker.eventQueue
              ++ builtEvents w.tracker.sessionId w.tracker.userId ins } } := by
  induction ins generalizing w with
  | nil => simp [trackActs, run, builtEvents]
  | cons x xs ih =>
    have : trackActs (x :: xs) = Action.track x.eventType x.data x.env :: trackActs xs := rfl
    rw [this, run_cons]
    simp only [List.length_cons] at hlen
    have hs : step cfg w (Action.track x.eventType x.data x.env)
        = { w with tracker := { w.tracker with
              eventQueue := w.tracker.eventQueue
                ++ [buildEvent w.tracker.sessionId w.tracker.userId x.env x.eventType x.data] } } := by
      simp [step, trackEvent_queue cfg x.env w.tracker x.eventType x.data h (by omega)]
    rw [hs, ih _ (by simp; omega)]
    simp [builtEvents]

/-- A run of `trackEvent` calls only adds pending requests, delivers nothing,
and leaves in the queue either everything (no flush was started) or a tail of
the events it built. -/
theorem run_tracks_shape (cfg : Config) (h : cfg.enabled = true)
    (ins : List TrackInput) (w : World) :
    (∃ more, (run cfg w (trackActs ins)).inflight = w.inflight ++ more)
      ∧ (run cfg w (trackActs ins)).delivered = w.delivered
      ∧ ((run cfg w (trackActs ins)).tracker.eventQueue
            = w.tracker.eventQueue ++ builtEvents w.tracker.sessionId w.tracker.userId ins
          ∨ (run cfg w (trackActs ins)).tracker.eventQueue
            <:+ builtEvents w.tracker.sessionId w.tracker.userId ins) := by
  induction ins generalizing w with
  | nil => exact ⟨⟨[], by simp [trackActs, run]⟩, rfl, Or.inl (by simp [trackActs, run, builtEvents])⟩
  | cons x xs ih =>
    have : trackActs (x :: xs) = Action.track x.eventType x.data x.env :: trackActs xs := rfl
    rw [this, run_cons]
    have hb : builtEvents w.tracker.sessionId w.tracker.userId (x :: xs)
        = buildEvent w.tracker.sessionId w.tracker.userId x.env x.eventType x.data
            :: builtEvents w.tracker.sessionId w.tracker.userId xs := rfl
    by_cases hth : cfg.batchSize ≤ w.tracker.eventQueue.length + 1
    · obtain ⟨⟨more, hm⟩, hd, hq⟩ := ih (step cfg w (Action.track x.eventType x.data x.env))
      simp only [step, trackEvent_flush cfg x.env w.tracker x.eventType x.data h hth,
        Option.toList, List.nil_append] at hm hd hq ⊢
      refine ⟨⟨_, by rw [hm, List.append_assoc]⟩, hd, Or.inr ?_⟩
      rw [hb]
      rcases hq with hq | hq
      · rw [hq]; exact List.suffix_cons _ _
      · exact hq.trans (List.suffix_cons _ _)
    · obtain ⟨⟨more, hm⟩, hd, hq⟩ := ih (step cfg w (Action.track x.eventType x.data x.env))
      simp only [step, trackEvent_queue cfg x.env w.tracker x.eventType x.data h (by omega),
        Option.toList, List.append_nil] at hm hd hq ⊢
      refine ⟨⟨_, hm⟩, hd, ?_⟩
      rw [hb]
      rcases hq with hq | hq
      · left; rw [hq]; simp
      · right; exact hq.trans (List.suffix_cons _ _)

/-- The batch of a request issued by an action is the queue followed by the
event the action tracked, if any. -/
theorem issued_events (cfg : Config) (w : World) (a : Action) (r : Request)
    (h : issued cfg w a = some r) :
    r.events = w.tracker.eventQueue
      ++ trackedEvents cfg w.tracker.sessionId w.tracker.userId [a] := by
  cases a with
  | track ty d env =>
    cases hen : cfg.enabled with
    | false => simp [issued, trackEvent_disabled cfg env w.tracker ty d hen] at h
    | true =>
      by_cases hth : cfg.batchSize ≤ w.tracker.eventQueue.length + 1
      · simp only [issued, trackEvent_flush cfg env w.tracker ty d hen hth,
          Option.some.injEq] at h
        subst h
        simp [trackedEvents, hen]
      · simp [issued, trackEvent_queue cfg env w.tracker ty d hen (by omega)] at h
  | flush iso =>
    simp only [issued, flushEvents] at h
    split at h
    · simp at h
    · simp only [Option.some.injEq] at h
      subst h
      simp [trackedEvents]
  | settle i o => simp [issued] at h

/-- An action that starts no flush and requeues nothing appends to the queue
the event it tracked, if any. -/
theorem quiet_step_queue (cfg : Config) (w : World) (a : Action)
    (hi : issued cfg w a = none) (hr : requeues w a = false) :
    (step cfg w a).tracker.eventQueue
      = w.tracker.eventQueue
          ++ trackedEvents cfg w.tracker.sessionId w.tracker.userId [a] := by
  cases a with
  | track ty d env =>
    cases hen : cfg.enabled with
    | false => simp [step, trackEvent_disabled cfg env w.tracker ty d hen, trackedEvents, hen]
    | true =>
      by_cases hth : cfg.batchSize ≤ w.tracker.eventQueue.length + 1
      · simp [issued, trackEvent_flush cfg env w.tracker ty d hen hth] at hi
      · simp [step, trackEvent_queue cfg env w.tracker ty d hen (by omega), trackedEvents, hen]
  | flush iso =>
    simp only [issued, flushEvents] at hi
    split at hi
    · rename_i h0
      simp [step, flushEvents, h0, trackedEvents]
    · simp at hi
  | settle i o =>
    cases hget : w.inflight[i]? with
    | none => simp [step_settle_none cfg w i o hget, trackedEvents]
    | some req =>
      have hok : o.ok = true := by
        simpa [requeues, hget] using hr
      simp [step_settle_some cfg w i o req hget, flushEventsResume_queue, hok, trackedEvents]

theorem quietRun_queue (cfg : Config) (mid : List Action) (w : World)
    (hq : quietRun cfg w mid = true) :
    (run cfg w mid).tracker.eventQueue
      = w.tracker.eventQueue
          ++ trackedEvents cfg w.tracker.sessionId w.tracker.userId mid := by
  induction mid generalizing w with
  | nil => simp [run, trackedEvents]
  | cons a rest ih =>
    simp only [quietRun, Bool.and_eq_true, Option.isNone_iff_eq_none, Bool.not_eq_true'] at hq
    obtain ⟨⟨hi, hr⟩, hrest⟩ := hq
    have hs := step_ids cfg w a
    rw [run_cons, ih _ hrest, quiet_step_queue cfg w a hi hr, hs.1, hs.2,
      trackedEvents_cons cfg _ _ a rest, List.append_assoc]

theorem run_ids (cfg : Config) (acts : List Action) (w : World) :
    (run cfg w acts).tracker.sessionId = w.tracker.sessionId
      ∧ (run cfg w acts).tracker.userId = w.tracker.userId := by
  induction acts generalizing w with
  | nil => exact ⟨rfl, rfl⟩
  | cons a rest ih =>
    have hs := step_ids cfg w a
    have := ih (step cfg w a)
    rw [run_cons]
    exact ⟨this.1.trans hs.1, this.2.trans hs.2⟩

/-! ## The claims -/

/-- C1: in every state reachable from the initial world by `trackEvent` calls,
flush starts and settlements of pending requests in any interleaving, the
multiset union of the queue, all in-flight batches and the delivered events
equals the multiset of the events tracked so far; hence in a state with an
empty queue and no in-flight batch the delivered multiset equals the tracked
multiset. -/
theorem tracker_conservation (cfg : Config) (sessionId userId : Option String)
    (acts : List Action) :
    heldEvents (run cfg (initialWorld sessionId userId) acts)
        = (trackedEvents cfg sessionId userId acts : Multiset Event)
      ∧ ((run cfg (initialWorld sessionId userId) acts).tracker.eventQueue = [] →
          (run cfg (initialWorld sessionId userId) acts).inflight = [] →
          ((run cfg (initialWorld sessionId userId) acts).delivered : Multiset Event)
            = (trackedEvents cfg sessionId userId acts : Multiset Event)) := by
  have h := heldEvents_run cfg acts (initialWorld sessionId userId)
  change _ = _ + (trackedEvents cfg sessionId userId acts : Multiset Event) at h
  have h0 : heldEvents (initialWorld sessionId userId) = 0 := by
    simp [heldEvents, initialWorld, inflightEvents]
  rw [h0, zero_add] at h
  refine ⟨h, fun hq hi => ?_⟩
  rw [← h]
  simp [heldEvents, inflightEvents, hq, hi]

/-- C1 at a concrete run with overlapping flushes. -/
theorem tracker_conservation_witness :
    ((run TRACKING_CONFIG (initialWorld (some "s") none) overlapRun).delivered
        : Multiset Event)
      = (trackedEvents TRACKING_CONFIG (some "s") none overlapRun : Multiset Event) :=
  (tracker_conservation TRACKING_CONFIG (some "s") none overlapRun).2
    (by decide) (by decide)

/-- C2 as stated fails: with the shipped configuration (batch size 10), a
queue of one event is drained, ten events are tracked while the request is in
flight (the tenth starts a second flush that drains them), and the first
request fails: the queue is then only the failed batch, not the batch followed
by the ten events. -/
theorem failed_flush_counterexample :
    (run TRACKING_CONFIG (queuedWorld [sampleEvent 0])
        (.flush "F" :: (trackActs tenInputs ++ [.settle 0 networkError]))).tracker.eventQueue
        = [sampleEvent 0]
      ∧ [sampleEvent 0] ≠ [sampleEvent 0] ++ builtEvents (some "s") none tenInputs := by
  decide

/-- C2, amended: for every non-empty queue, if a flush drains it as batch `B`,
fewer than `batchSize` events are tracked while the request is in flight (so
that no tracking call starts a flush) and the request fails, the queue
afterwards is exactly `B` followed by the events tracked in between, in order;
and whatever happens in between, a failure puts `B` in front of the queue as it
is at that moment. -/
theorem failed_flush_requeues (cfg : Config) (w : World) (iso : String)
    (ins : List TrackInput) (o : FetchOutcome)
    (hq : w.tracker.eventQueue ≠ []) (hlen : ins.length < cfg.batchSize)
    (ho : o.ok = false) :
    (run cfg w (.flush iso :: (trackActs ins ++ [.settle w.inflight.length o]))).tracker.eventQueue
        = w.tracker.eventQueue
            ++ trackedEvents cfg w.tracker.sessionId w.tracker.userId (trackActs ins)
      ∧ ∀ (t : Tracker) (b : List Event),
          (flushEventsResume t b o).tracker.eventQueue = b ++ t.eventQueue := by
  refine ⟨?_, fun t b => by simp [flushEventsResume_queue, ho]⟩
  have hne : ¬ w.tracker.eventQueue.length = 0 := by
    simpa [List.length_eq_zero] using hq
  have hstep : step cfg w (.flush iso)
      = { tracker := { w.tracker with eventQueue := [] }
          inflight := w.inflight ++ [{ endpoint := cfg.endpoint
                                       events := w.tracker.eventQueue
                                       requestMeta := { timestamp := iso
                                                        sessionId := w.tracker.sessionId } }]
          delivered := w.delivered } := by
    simp [step, flushEvents, hne]
  rw [run_cons, hstep, run_append, trackedEvents_trackActs]
  cases hen : cfg.enabled with
  | false =>
    rw [run_tracks_disabled cfg hen]
    simp [run, step, flushEventsResume_queue, ho]
  | true =>
    rw [run_tracks_below cfg hen ins _ (by simpa using hlen)]
    simp [run, step, flushEventsResume_queue, ho]

/-- C2 at a queue of three events whose request is rejected with nothing
tracked in between: the queue afterwards is the same three events in order. -/
theorem failed_flush_requeues_witness :
    (run TRACKING_CONFIG (queuedWorld [sampleEvent 1, sampleEvent 2, sampleEvent 3])
        [.flush "F", .settle 0 networkError]).tracker.eventQueue
      = [sampleEvent 1, sampleEvent 2, sampleEvent 3] := by
  have h := (failed_flush_requeues TRACKING_CONFIG
    (queuedWorld [sampleEvent 1, sampleEvent 2, sampleEvent 3]) "F" [] networkError
    (by decide) (by decide) (by decide)).1
  simpa [trackActs, trackedEvents, queuedWorld] using h

/-- C3 as stated fails: two flushes overlap, the first (batch `[e1]`) fails,
then the second (batch `[e2]`) fails; the next flush started after the first
failure has the batch `[e2, e1]`, which does not begin with `e1`, and `e2`,
tracked after `e1` was drained, comes before it. -/
theorem retry_order_counterexample :
    ((run TRACKING_CONFIG (initialWorld (some "s") none) twoPending).inflight.map
        Request.events = [[sampleEvent 1], [sampleEvent 2]])
      ∧ ((issued TRACKING_CONFIG
            (run TRACKING_CONFIG (initialWorld (some "s") none)
              (twoPending ++ [.settle 0 networkError, .settle 0 networkError]))
            (.flush "F3")).map Request.events = some [sampleEvent 2, sampleEvent 1])
      ∧ [sampleEvent 2, sampleEvent 1].take 1 ≠ [sampleEvent 1] := by
  decide

/-- C3, amended: if a flush that drained batch `B` fails and, until the next
flush is started, no other pending request fails, then the batch of that next
flush is exactly `B` in its original order, followed by the events that were in
the queue at the failure and then the events tracked since, in tracking order;
so every event tracked after `B` was drained that is in that batch comes after
the events of `B`. -/
theorem retry_batch_begins_with_failed (cfg : Config) (w : World) (i : Nat)
    (req : Request) (o : FetchOutcome) (mid : List Action) (a : Action) (r : Request)
    (hreq : w.inflight[i]? = some req) (ho : o.ok = false)
    (hquiet : quietRun cfg (step cfg w (.settle i o)) mid = true)
    (hnext : issued cfg (run cfg (step cfg w (.settle i o)) mid) a = some r) :
    r.events = req.events
      ++ (w.tracker.eventQueue
        ++ trackedEvents cfg w.tracker.sessionId w.tracker.userId (mid ++ [a])) := by
  have hs := step_ids cfg w (.settle i o)
  have hr := run_ids cfg mid (step cfg w (.settle i o))
  have hq0 : (step cfg w (.settle i o)).tracker.eventQueue
      = req.events ++ w.tracker.eventQueue := by
    simp [step_settle_some cfg w i o req hreq, flushEventsResume_queue, ho]
  rw [issued_events cfg _ a r hnext, quietRun_queue cfg mid _ hquiet, hq0, hr.1, hr.2,
    hs.1, hs.2, trackedEvents_append]
  simp [List.append_assoc]

/-- C3 at a concrete run: the batch `[e1]` fails, `e2` is tracked, and the
retry flush sends `[e1, e2]`. -/
theorem retry_batch_begins_with_failed_witness :
    pendingOne.inflight[0]? = some failedRequest
      ∧ issued TRACKING_CONFIG
          (run TRACKING_CONFIG (step TRACKING_CONFIG pendingOne (.settle 0 networkError))
            [trackTwo]) (.flush "F2") = some retryRequest
      ∧ retryRequest.events = failedRequest.events
          ++ (pendingOne.tracker.eventQueue
            ++ trackedEvents TRACKING_CONFIG pendingOne.tracker.sessionId
                pendingOne.tracker.userId ([trackTwo] ++ [.flush "F2"])) :=
  ⟨by decide, by decide,
    retry_batch_begins_with_failed TRACKING_CONFIG pendingOne 0 failedRequest networkError
      [trackTwo] (.flush "F2") retryRequest (by decide) (by decide) (by decide) (by decide)⟩

/-- C4: for every non-empty queue, `flushEvents` issues one request whose
events are the queue in order and whose `meta.sessionId` is the current session
id, and leaves the queue empty; when the request then succeeds after any number
of `trackEvent` calls, the queue holds only events tracked while the request
was in flight, in tracking order (a tail of them, and all of them when fewer
than `batchSize` were tracked), and the batch has been delivered. -/
theorem flush_drains_and_success_discards (cfg : Config) (w : World) (iso : String)
    (hq : w.tracker.eventQueue ≠ []) :
    flushEvents cfg iso w.tracker
        = ({ w.tracker with eventQueue := [] },
            some { endpoint := cfg.endpoint
                   events := w.tracker.eventQueue
                   requestMeta := { timestamp := iso, sessionId := w.tracker.sessionId } })
      ∧ ∀ (ins : List TrackInput) (o : FetchOutcome), o.ok = true →
          ((run cfg w (.flush iso :: (trackActs ins
                ++ [.settle w.inflight.length o]))).tracker.eventQueue
              <:+ trackedEvents cfg w.tracker.sessionId w.tracker.userId (trackActs ins))
            ∧ (ins.length < cfg.batchSize →
                (run cfg w (.flush iso :: (trackActs ins
                    ++ [.settle w.inflight.length o]))).tracker.eventQueue
                  = trackedEvents cfg w.tracker.sessionId w.tracker.userId (trackActs ins))
            ∧ (run cfg w (.flush iso :: (trackActs ins
                  ++ [.settle w.inflight.length o]))).delivered
                = w.delivered ++ w.tracker.eventQueue := by
  have hne : ¬ w.tracker.eventQueue.length = 0 := by
    simpa [List.length_eq_zero] using hq
  have hf : flushEvents cfg iso w.tracker
      = ({ w.tracker with eventQueue := [] },
          some { endpoint := cfg.endpoint
                 events := w.tracker.eventQueue
                 requestMeta := { timestamp := iso, sessionId := w.tracker.sessionId } }) := by
    simp [flushEvents, hne]
  refine ⟨hf, fun ins o ho => ?_⟩
  have hstep : step cfg w (.flush iso)
      = { tracker := { w.tracker with eventQueue := [] }
          inflight := w.inflight ++ [{ endpoint := cfg.endpoint
                                       events := w.tracker.eventQueue
                                       requestMeta := { timestamp := iso
                                                        sessionId := w.tracker.sessionId } }]
          delivered := w.delivered } := by
    simp [step, hf]
  rw [run_cons, hstep, run_append, trackedEvents_trackActs]
  cases hen : cfg.enabled with
  | false =>
    rw [run_tracks_disabled cfg hen]
    simp [run, step, flushEventsResume_queue, ho]
  | true =>
    obtain ⟨⟨more, hm⟩, hd, hqs⟩ := run_tracks_shape cfg hen ins
      { tracker := { w.tracker with eventQueue := [] }
        inflight := w.inflight ++ [{ endpoint := cfg.endpoint
                                     events := w.tracker.eventQueue
                                     requestMeta := { timestamp := iso
                                                      sessionId := w.tracker.sessionId } }]
        delivered := w.delivered }
    simp only [List.nil_append] at hqs hd hm
    have hget : (run cfg
        { tracker := { w.tracker with eventQueue := [] }
          inflight := w.inflight ++ [{ endpoint := cfg.endpoint
                                       events := w.tracker.eventQueue
                                       requestMeta := { timestamp := iso
                                                        sessionId := w.tracker.sessionId } }]
          delivered := w.delivered } (trackActs ins)).inflight[w.inflight.length]?
        = some { endpoint := cfg.endpoint
                 events := w.tracker.eventQueue
                 requestMeta := { timestamp := iso, sessionId := w.tracker.sessionId } } := by
      rw [hm, List.append_assoc, List.getElem?_append_right (le_refl _)]
      simp
    simp only [run, List.foldl_cons, List.foldl_nil] at hget hqs hd ⊢
    rw [step_settle_some cfg _ _ o _ hget]
    simp only [flushEventsResume_queue, ho, if_true, hd]
    refine ⟨?_, fun hlen => ?_, trivial⟩
    · rcases hqs with h1 | h1
      · rw [h1]
      · exact h1
    · have := run_tracks_below cfg hen ins
        { tracker := { w.tracker with eventQueue := [] }
          inflight := w.inflight ++ [{ endpoint := cfg.endpoint
                                       events := w.tracker.eventQueue
                                       requestMeta := { timestamp := iso
                                                        sessionId := w.tracker.sessionId } }]
          delivered := w.delivered } (by simpa using hlen)
      simp only [run] at this
      rw [this]
      simp

/-- C4 at a queue of three events with one event tracked while the request
is in flight: after the success the queue is that one event. -/
theorem flush_drains_and_success_discards_witness :
    (run TRACKING_CONFIG (queuedWorld [sampleEvent 1, sampleEvent 2, sampleEvent 3])
        (.flush "F" :: (trackActs [sampleInput 4]
          ++ [.settle (queuedWorld [sampleEvent 1, sampleEvent 2, sampleEvent 3]).inflight.length
                okResponse]))).tracker.eventQueue
      = trackedEvents TRACKING_CONFIG
          (queuedWorld [sampleEvent 1, sampleEvent 2, sampleEvent 3]).tracker.sessionId
          (queuedWorld [sampleEvent 1, sampleEvent 2, sampleEvent 3]).tracker.userId
          (trackActs [sampleInput 4]) :=
  ((flush_drains_and_success_discards TRACKING_CONFIG
      (queuedWorld [sampleEvent 1, sampleEvent 2, sampleEvent 3]) "F" (by decide)).2
    [sampleInput 4] okResponse (by decide)).2.1 (by decide)

/-- C5: with tracking enabled, a `trackEvent` call starts a flush exactly when
the queue length after appending the new event is at least `batchSize`; with
`batchSize = 10` and an empty queue, up to nine calls start no flush and leave
their events queued in order, and the tenth call starts a flush whose batch is
all ten events in tracking order, leaving the queue empty. -/
theorem track_flush_threshold (cfg : Config) (hen : cfg.enabled = true) :
    (∀ (env : Env) (t : Tracker) (ty : String) (d : EventData),
        (trackEvent cfg env t ty d).2.isSome = true
          ↔ cfg.batchSize ≤ (t.eventQueue
              ++ [buildEvent t.sessionId t.userId env ty d]).length)
      ∧ (cfg.batchSize = 10 → ∀ (w : World) (ins : List TrackInput) (x : TrackInput),
          w.tracker.eventQueue = [] →
          (ins.length ≤ 9 →
            run cfg w (trackActs ins)
              = { w with tracker := { w.tracker with
                    eventQueue := builtEvents w.tracker.sessionId w.tracker.userId ins } })
          ∧ (ins.length = 9 →
            trackEvent cfg x.env (run cfg w (trackActs ins)).tracker x.eventType x.data
              = ({ w.tracker with eventQueue := [] },
                  some { endpoint := cfg.endpoint
                         events := builtEvents w.tracker.sessionId w.tracker.userId
                           (ins ++ [x])
                         requestMeta := { timestamp := x.env.flushTime
                                          sessionId := w.tracker.sessionId } }))) := by
  refine ⟨fun env t ty d => ?_, fun hb w ins x hq => ?_⟩
  · by_cases hth : cfg.batchSize ≤ t.eventQueue.length + 1
    · simp [trackEvent_flush cfg env t ty d hen hth, hth]
    · simp [trackEvent_queue cfg env t ty d hen (by omega), hth]
  · have hrun : ins.length ≤ 9 →
        run cfg w (trackActs ins)
          = { w with tracker := { w.tracker with
                eventQueue := builtEvents w.tracker.sessionId w.tracker.userId ins } } := by
      intro hlen
      rw [run_tracks_below cfg hen ins w (by rw [hq, hb]; simp; omega), hq]
      simp
    refine ⟨hrun, fun hlen => ?_⟩
    rw [hrun (by omega)]
    rw [trackEvent_flush cfg x.env _ x.eventType x.data hen
      (by simp [builtEvents, hlen, hb])]
    simp [builtEvents]

/-- C5 with the shipped configuration: nine sample calls leave nine events
queued and no request pending. -/
theorem track_flush_threshold_witness :
    run TRACKING_CONFIG (queuedWorld []) (trackActs (tenInputs.take 9))
      = { queuedWorld [] with tracker := { (queuedWorld []).tracker with
            eventQueue := builtEvents (queuedWorld []).tracker.sessionId
              (queuedWorld []).tracker.userId (tenInputs.take 9) } } :=
  ((track_flush_threshold TRACKING_CONFIG (by decide)).2 (by decide) (queuedWorld [])
    (tenInputs.take 9) (sampleInput 10) (by decide)).1 (by decide)

/-- C6: with tracking enabled and the queue length below `batchSize - 1`,
`trackEvent(type, data)` leaves the queue equal to the previous queue followed
by exactly one new event, whose type and data are the arguments and whose
session id and user id are the tracker's; no flush is started. -/
theorem track_appends_one (cfg : Config) (env : Env) (t : Tracker) (ty : String)
    (d : EventData) (hen : cfg.enabled = true)
    (hlen : (t.eventQueue.length : Int) < (cfg.batchSize : Int) - 1) :
    trackEvent cfg env t ty d
        = ({ t with eventQueue := t.eventQueue
              ++ [buildEvent t.sessionId t.userId env ty d] }, none)
      ∧ (buildEvent t.sessionId t.userId env ty d).type = ty
      ∧ (buildEvent t.sessionId t.userId env ty d).data = d
      ∧ (buildEvent t.sessionId t.userId env ty d).sessionId = t.sessionId
      ∧ (buildEvent t.sessionId t.userId env ty d).userId = t.userId :=
  ⟨trackEvent_queue cfg env t ty d hen (by omega), rfl, rfl, rfl, rfl⟩

/-- C6 on a queue of two events with the shipped configuration. -/
theorem track_appends_one_witness :
    trackEvent TRACKING_CONFIG (sampleEnv 3)
        { eventQueue := [sampleEvent 1, sampleEvent 2], sessionId := some "s", userId := none }
        "click" [("n", .prim (.num 3))]
      = ({ eventQueue := [sampleEvent 1, sampleEvent 2, sampleEvent 3]
           sessionId := some "s", userId := none }, none) :=
  (track_appends_one TRACKING_CONFIG (sampleEnv 3)
    { eventQueue := [sampleEvent 1, sampleEvent 2], sessionId := some "s", userId := none }
    "click" [("n", .prim (.num 3))] (by decide) (by decide)).1

/-- C7: for every queue and every batch, a flush whose request resolves with
a non-success status and a flush whose request rejects end with the same
tracker state, namely the batch put back in front of the queue; and however the
request settles, the promise of `flushEvents` is fulfilled, never rejected. -/
theorem flush_failures_agree (t : Tracker) (b : List Event) (status : Nat)
    (statusText error : String) (hs : status < 200 ∨ 299 < status) :
    (flushEventsResume t b (.response status statusText)).tracker
        = (flushEventsResume t b (.rejected error)).tracker
      ∧ (flushEventsResume t b (.rejected error)).tracker.eventQueue = b ++ t.eventQueue
      ∧ ∀ o : FetchOutcome, (flushEventsResume t b o).settled = Settled.fulfilled := by
  have hok : (FetchOutcome.response status statusText).ok = false := by
    simp only [FetchOutcome.ok, Bool.and_eq_false_iff, decide_eq_false_iff_not]
    omega
  refine ⟨?_, ?_, fun o => ?_⟩
  · simp [flushEventsResume, flushTryBody, hok]
  · simp [flushEventsResume, flushTryBody]
  · unfold flushEventsResume
    cases flushTryBody o with
    | ok u => cases u; rfl
    | error e => rfl

/-- C7 at a queue `[e3]` and batch `[e1, e2]`: a 500 response and a rejected
request leave the same tracker. -/
theorem flush_failures_agree_witness :
    (flushEventsResume (queuedWorld [sampleEvent 3]).tracker [sampleEvent 1, sampleEvent 2]
        (.response 500 "Internal Server Error")).tracker
      = (flushEventsResume (queuedWorld [sampleEvent 3]).tracker
          [sampleEvent 1, sampleEvent 2] (.rejected "TypeError")).tracker :=
  (flush_failures_agree (queuedWorld [sampleEvent 3]).tracker [sampleEvent 1, sampleEvent 2]
    500 "Internal Server Error" "TypeError" (by decide)).1

theorem newSessionId_ne_empty (now : Nat) (random36 : String) :
    newSessionId now random36 ≠ "" := by
  intro h
  have hl := congrArg String.length h
  simp only [newSessionId, String.length_append] at hl
  have h8 : "session_".length = 8 := by decide
  have h0 : "".length = 0 := by decide
  omega

theorem getItem_setItem (s : Storage) (key value : String) :
    (s.setItem key value).getItem key = some value := by
  simp [Storage.setItem, Storage.getItem, List.lookup]

/-- C8: on a store without a `formcraft_session_id` entry `initializeSession`
sets the session id to the non-empty string `session_<time>_<suffix>` and
writes it to the store once; every later `initializeSession` on the resulting
store, whatever the clock, the random value and the module state, yields the
same session id, writes nothing and leaves the store as it is. -/
theorem session_id_created_once (env : SessionEnv) (store : Storage) (t : Tracker)
    (hnone : store.getItem "formcraft_session_id" = none) :
    newSessionId env.now env.random36
        = "session_" ++ toString env.now ++ "_" ++ substr env.random36 2 9
      ∧ newSessionId env.now env.random36 ≠ ""
      ∧ (initializeSession env store t).tracker.sessionId
          = some (newSessionId env.now env.random36)
      ∧ (initializeSession env store t).writes
          = [("formcraft_session_id", newSessionId env.now env.random36)]
      ∧ (initializeSession env store t).store.getItem "formcraft_session_id"
          = some (newSessionId env.now env.random36)
      ∧ ∀ (env2 : SessionEnv) (t2 : Tracker),
          (initializeSession env2 (initializeSession env store t).store t2).tracker.sessionId
              = some (newSessionId env.now env.random36)
            ∧ (initializeSession env2 (initializeSession env store t).store t2).writes = []
            ∧ (initializeSession env2 (initializeSession env store t).store t2).store
              = (initializeSession env store t).store := by
  have hne := newSessionId_ne_empty env.now env.random36
  have h1 : initializeSession env store t
      = { tracker := { t with sessionId := some (newSessionId env.now env.random36)
                              userId := match env.userElement with
                                | some u => some u
                                | none => t.userId }
          store := store.setItem "formcraft_session_id" (newSessionId env.now env.random36)
          writes := [("formcraft_session_id", newSessionId env.now env.random36)] } := by
    simp [initializeSession, hnone, isFalsy]
  refine ⟨rfl, hne, by rw [h1], by rw [h1], by rw [h1]; exact getItem_setItem _ _ _, ?_⟩
  intro env2 t2
  rw [h1]
  have hget := getItem_setItem store "formcraft_session_id" (newSessionId env.now env.random36)
  simp [initializeSession, hget, isFalsy, hne]

/-- C8 on an empty store: the first load creates the id, a later load with
another clock and random value keeps it and writes nothing. -/
theorem session_id_created_once_witness :
    (initializeSession firstLoad [] freshTracker).tracker.sessionId
        = some (newSessionId firstLoad.now firstLoad.random36)
      ∧ (initializeSession { now := 1700000099999, random36 := "0.zzzzzzzzzzz", userElement := none }
          (initializeSession firstLoad [] freshTracker).store freshTracker).writes = [] :=
  ⟨(session_id_created_once firstLoad [] freshTracker (by decide)).2.2.1,
    ((session_id_created_once firstLoad [] freshTracker (by decide)).2.2.2.2.2
      { now := 1700000099999, random36 := "0.zzzzzzzzzzz", userElement := none }
      freshTracker).2.1⟩

theorem isDepthCall_scrollDepthCall (m k x : Int) :
    isDepthCall m (scrollDepthCall k x) = decide (k = m) := by
  by_cases hk : k = m <;> simp [isDepthCall, scrollDepthCall, List.lookup, hk]

/-- The marker loop in closed form, for any list of distinct markers. -/
theorem foldl_markers (r mx : Int) (ms : List Int) (hnd : ms.Nodup)
    (st : ScrollState) (calls : List TrackCall) :
    ms.foldl
        (fun (acc : ScrollState × List TrackCall) marker =>
          if r ≥ marker ∧ ¬ acc.1.triggeredMarkers.contains marker then
            ({ acc.1 with triggeredMarkers := acc.1.triggeredMarkers ++ [marker] },
              acc.2 ++ [scrollDepthCall marker mx])
          else acc)
        (st, calls)
      = ({ st with triggeredMarkers := st.triggeredMarkers
             ++ ms.filter (fun k => decide (k ≤ r) && !st.triggeredMarkers.contains k) },
          calls ++ (ms.filter
              (fun k => decide (k ≤ r) && !st.triggeredMarkers.contains k)).map
            (fun k => scrollDepthCall k mx)) := by
  induction ms generalizing st calls with
  | nil => simp
  | cons k rest ih =>
    have hk : k ∉ rest := (List.nodup_cons.1 hnd).1
    have hrest : rest.Nodup := (List.nodup_cons.1 hnd).2
    rw [List.foldl_cons]
    by_cases hc : r ≥ k ∧ ¬ st.triggeredMarkers.contains k
    · rw [if_pos hc, ih hrest]
      have hf : rest.filter (fun j => decide (j ≤ r)
            && !(st.triggeredMarkers ++ [k]).contains j)
          = rest.filter (fun j => decide (j ≤ r) && !st.triggeredMarkers.contains j) := by
        apply List.filter_congr
        intro j hj
        have hjk : j ≠ k := fun h => hk (h ▸ hj)
        simp [hjk]
      have hck : (decide (k ≤ r) && !st.triggeredMarkers.contains k) = true := by
        simpa using hc
      simp only [hf, List.filter_cons, hck, if_true, List.map_cons, List.append_assoc,
        List.singleton_append]
    · rw [if_neg hc, ih hrest]
      have hck : (decide (k ≤ r) && !st.triggeredMarkers.contains k) = false := by
        simpa using hc
      simp only [List.filter_cons, hck]
      simp

/-- The function `trackScrollDepth` in closed form: the markers fired are the
markers reached by the reading and not yet in the set, in marker order. -/
theorem trackScrollDepth_eq (r : Int) (st : ScrollState) :
    trackScrollDepth r st
      = ({ maxScroll := max st.maxScroll r
           triggeredMarkers := st.triggeredMarkers
             ++ scrollDepthMarkers.filter
                 (fun k => decide (k ≤ r) && !st.triggeredMarkers.contains k) },
          (scrollDepthMarkers.filter
              (fun k => decide (k ≤ r) && !st.triggeredMarkers.contains k)).map
            (fun k => scrollDepthCall k (max st.maxScroll r))) := by
  unfold trackScrollDepth
  simp only []
  rw [foldl_markers r (max st.maxScroll r) scrollDepthMarkers (by decide)]
  simp

/-- The number of events for a marker at one reading: one if the reading
reaches the marker and the marker is not yet in the set, none otherwise. -/
theorem trackScrollDepth_count (r : Int) (st : ScrollState) (m : Int)
    (hm : m ∈ scrollDepthMarkers) :
    (trackScrollDepth r st).2.countP (isDepthCall m)
      = if m ≤ r ∧ m ∉ st.triggeredMarkers then 1 else 0 := by
  rw [trackScrollDepth_eq]
  simp only [List.countP_map]
  have hfun : (isDepthCall m ∘ fun k => scrollDepthCall k (max st.maxScroll r))
      = fun k => k == m := by
    funext k
    by_cases hkm : k = m <;> simp [isDepthCall_scrollDepthCall, hkm]
  rw [hfun, List.countP_filter]
  have hnd : scrollDepthMarkers.Nodup := by decide
  by_cases hc : m ≤ r ∧ m ∉ st.triggeredMarkers
  · rw [if_pos hc]
    have : scrollDepthMarkers.countP
        (fun k => (k == m) && (decide (k ≤ r) && !st.triggeredMarkers.contains k))
        = scrollDepthMarkers.countP (fun k => k == m) := by
      apply List.countP_congr
      intro k _
      by_cases hkm : k = m
      · subst hkm; simp [hc.1, hc.2]
      · simp [hkm]
    rw [this]
    have hcount := List.count_eq_one_of_mem hnd hm
    simpa [List.count] using hcount
  · rw [if_neg hc]
    rw [List.countP_eq_zero]
    intro k _
    by_cases hkm : k = m
    · subst hkm
      simp only [not_and, not_not] at hc
      by_cases hle : k ≤ r
      · simp [hle, hc hle]
      · simp [hle]
    · simp [hkm]

/-- The set of markers after a reading: a marker is in it when it was before
or the reading reaches it. -/
theorem trackScrollDepth_mem (r : Int) (st : ScrollState) (m : Int)
    (hm : m ∈ scrollDepthMarkers) :
    m ∈ (trackScrollDepth r st).1.triggeredMarkers ↔ m ∈ st.triggeredMarkers ∨ m ≤ r := by
  rw [trackScrollDepth_eq]
  simp only [List.mem_append, List.mem_filter, Bool.and_eq_true, decide_eq_true_eq,
    Bool.not_eq_true', List.contains_eq_any_beq, List.any_eq_false, beq_iff_eq]
  constructor
  · rintro (h | ⟨_, h, _⟩)
    · exact Or.inl h
    · exact Or.inr h
  · rintro (h | h)
    · exact Or.inl h
    · by_cases hin : m ∈ st.triggeredMarkers
      · exact Or.inl hin
      · refine Or.inr ⟨hm, h, fun x hx hxm => ?_⟩
        simp at hxm
        exact hin (hxm ▸ hx)

/-- Over a whole sequence of readings a marker fires at most once, and not at
all when it is already in the set. -/
theorem scrollRun_count_le (rs : List Int) (st : ScrollState) (m : Int)
    (hm : m ∈ scrollDepthMarkers) :
    (scrollRun st rs).flatten.countP (isDepthCall m)
      ≤ if m ∈ st.triggeredMarkers then 0 else 1 := by
  induction rs generalizing st with
  | nil => simp [scrollRun]
  | cons r rest ih =>
    have hc := trackScrollDepth_count r st m hm
    have hmem := trackScrollDepth_mem r st m hm
    have hrest := ih (trackScrollDepth r st).1
    simp only [scrollRun, List.flatten_cons, List.countP_append]
    by_cases hin : m ∈ st.triggeredMarkers
    · have h1 : m ∈ (trackScrollDepth r st).1.triggeredMarkers := hmem.2 (Or.inl hin)
      rw [if_pos h1] at hrest
      rw [if_neg (by tauto)] at hc
      rw [if_pos hin]
      omega
    · rw [if_neg hin]
      by_cases hle : m ≤ r
      · have h1 : m ∈ (trackScrollDepth r st).1.triggeredMarkers := hmem.2 (Or.inr hle)
        rw [if_pos h1] at hrest
        rw [if_pos ⟨hle, hin⟩] at hc
        omega
      · rw [if_neg (by tauto)] at hc
        have : (if m ∈ (trackScrollDepth r st).1.triggeredMarkers then 0 else 1) ≤ 1 := by
          split <;> omega
        omega

/-- A marker fires at the `i`-th reading exactly when it is not yet in the set
at the start, the reading reaches it and no earlier reading did. -/
theorem scrollRun_at (rs : List Int) (st : ScrollState) (m : Int)
    (hm : m ∈ scrollDepthMarkers) (i : Nat) (r : Int) (hr : rs[i]? = some r) :
    (∃ c ∈ (scrollRun st rs).getD i [], isDepthCall m c = true)
      ↔ (m ∉ st.triggeredMarkers ∧ m ≤ r ∧ ∀ x ∈ rs.take i, x < m) := by
  induction rs generalizing st i with
  | nil => simp at hr
  | cons r0 rest ih =>
    cases i with
    | zero =>
      simp only [List.getElem?_cons_zero, Option.some.injEq] at hr
      subst hr
      have hc := trackScrollDepth_count r0 st m hm
      have hpos : (∃ c ∈ (trackScrollDepth r0 st).2, isDepthCall m c = true)
          ↔ 0 < (trackScrollDepth r0 st).2.countP (isDepthCall m) := by
        rw [List.countP_pos_iff]
      simp only [scrollRun, List.getD_cons_zero, List.take_zero, List.not_mem_nil,
        false_implies, implies_true, and_true]
      rw [hpos, hc]
      by_cases hcond : m ≤ r0 ∧ m ∉ st.triggeredMarkers
      · simp [hcond]
      · rw [if_neg hcond]
        simp only [lt_self_iff_false, false_iff]
        tauto
    | succ j =>
      simp only [List.getElem?_cons_succ] at hr
      have hmem := trackScrollDepth_mem r0 st m hm
      simp only [scrollRun, List.getD_cons_succ, List.take_succ_cons, List.mem_cons,
        forall_eq_or_imp]
      rw [ih (trackScrollDepth r0 st).1 j hr, hmem]
      constructor
      · rintro ⟨h1, h2, h3⟩
        exact ⟨fun h => h1 (Or.inl h), h2, by
          by_contra hlt
          exact h1 (Or.inr (not_lt.1 hlt)), h3⟩
      · rintro ⟨h1, h2, h3, h4⟩
        exact ⟨fun h => h.elim h1 (fun hle => absurd h3 (not_lt.2 hle)), h2, h4⟩

/-- C9: for every sequence of scroll-percentage readings processed by
`trackScrollDepth` from the initial state, each marker of 25, 50, 75, 100
produces at most one `scroll_depth` event over the whole sequence, and a
reading produces the event for a marker exactly when it is the first reading
greater than or equal to the marker; the readings 30, 10, 30 produce one
event, with depth 25. -/
theorem scroll_depth_fires_once (rs : List Int) :
    (∀ m ∈ scrollDepthMarkers,
        (scrollRun ScrollState.initial rs).flatten.countP (isDepthCall m) ≤ 1
          ∧ ∀ (i : Nat) (r : Int), rs[i]? = some r →
              ((∃ c ∈ (scrollRun ScrollState.initial rs).getD i [], isDepthCall m c = true)
                ↔ (m ≤ r ∧ ∀ x ∈ rs.take i, x < m)))
      ∧ scrollRun ScrollState.initial [30, 10, 30] = [[scrollDepthCall 25 30], [], []] := by
  refine ⟨fun m hm => ⟨?_, fun i r hr => ?_⟩, by decide⟩
  · have := scrollRun_count_le rs ScrollState.initial m hm
    simpa [ScrollState.initial] using this
  · rw [scrollRun_at rs ScrollState.initial m hm i r hr]
    simp [ScrollState.initial]

/-- C9 on the readings 30, 60, 10, 80: the marker 50 fires at the second
reading, the first one that reaches it. -/
theorem scroll_depth_fires_once_witness :
    ∃ c ∈ (scrollRun ScrollState.initial [30, 60, 10, 80]).getD 1 [],
      isDepthCall 50 c = true :=
  (((scroll_depth_fires_once [30, 60, 10, 80]).1 50 (by decide)).2 1 60 (by decide)).2
    ⟨by decide, by decide⟩

/-- C10 (code evaluated at the failing input): with `startTime = 0` and
`lastActivity = 10001` the active time is 10001 ms, more than 10 seconds, yet
the rounded `timeSpent` is 10 and the `time_on_page` payload carries
`engaged: false`. -/
theorem engaged_counterexample :
    (10001 : Int) - 0 > 10000
      ∧ timeSpent 0 10001 = 10
      ∧ engagedFlag (timeOnPageCall 0 10001 20000) = some (.prim (.bool false)) := by
  decide

/-- The `engaged` flag as the code computes it: for all integer millisecond
times `startTime ≤ lastActivity` it is true exactly when `timeSpent`, the
active time in seconds rounded to the nearest integer (halves up), exceeds 10,
that is exactly when `lastActivity - startTime` is at least 10500 ms; between
10001 ms and 10499 ms of activity the flag is false. -/
theorem engaged_iff (startTime lastActivity now : Int) (h : startTime ≤ lastActivity) :
    (engagedFlag (timeOnPageCall startTime lastActivity now) = some (.prim (.bool true))
        ↔ timeSpent startTime lastActivity > 10)
      ∧ (engagedFlag (timeOnPageCall startTime lastActivity now) = some (.prim (.bool true))
        ↔ lastActivity - startTime ≥ 10500) := by
  have hflag : engagedFlag (timeOnPageCall startTime lastActivity now)
      = some (.prim (.bool (decide (timeSpent startTime lastActivity > 10)))) := by
    simp [engagedFlag, timeOnPageCall, List.lookup]
  have hts : timeSpent startTime lastActivity > 10 ↔ lastActivity - startTime ≥ 10500 := by
    unfold timeSpent roundDiv
    constructor
    · intro h1
      by_contra h2
      have : (2 * (lastActivity - startTime) + ((1000 : Nat) : Int)) / (2 * ((1000 : Nat) : Int))
          ≤ 10 := by
        have h3 : 2 * (lastActivity - startTime) + ((1000 : Nat) : Int)
            < (10 + 1) * (2 * ((1000 : Nat) : Int)) := by
          push_cast; omega
        have := Int.ediv_lt_of_lt_mul (by norm_num) h3
        omega
      omega
    · intro h1
      have h3 : (10 + 1) * (2 * ((1000 : Nat) : Int))
          ≤ 2 * (lastActivity - startTime) + ((1000 : Nat) : Int) := by
        push_cast; omega
      have := Int.le_ediv_of_mul_le (by norm_num) h3
      omega
  rw [hflag]
  constructor
  · simp
  · rw [← hts]; simp

/-- The flag at 10500 ms of activity is true. -/
theorem engaged_iff_witness :
    engagedFlag (timeOnPageCall 1000 11500 30000) = some (.prim (.bool true)) :=
  ((engaged_iff 1000 11500 30000 (by decide)).2).2 (by decide)

theorem beginsWith_append (a b : List Char) : beginsWith (a ++ b) a = true := by
  induction a with
  | nil => cases b <;> rfl
  | cons c cs ih => simp [beginsWith, ih]

/-- A link whose URL has the page's own origin is never classified as
external. -/
theorem linkExternal_same_origin (u : Url) : linkExternal u.href u.origin = false := by
  simp [linkExternal, startsWith, Url.href, String.data_append, beginsWith_append]

/-- C11 (code evaluated at the failing input): on the page
`https://example.com` a link to `https://example.com.evil.org/page` has another
origin, yet its `href` starts with the page's origin string, so the
`link_click` payload carries `external: false`. -/
theorem link_external_prefix_check :
    lookalikeLink.origin ≠ pageOrigin
      ∧ linkExternal lookalikeLink.href pageOrigin = false
      ∧ autoClickListener pageOrigin lookalikeClick
        = [{ eventType := "link_click"
             data := [("href", .prim (.str "https://example.com.evil.org/page")),
                      ("text", .prim (.str "Offer")),
                      ("external", .prim (.bool false))] }] := by
  decide

/-- C12 as stated fails: a click on a button that is opted in through
`data-track` produces the `click` event and also the `button_click` event. -/
theorem opted_in_button_counterexample :
    hasDataTrack trackedButtonClick.target = true
      ∧ eventTypes (handleClick pageOrigin trackedButtonClick) = ["click", "button_click"] := by
  decide

/-- C12, amended: for every click the auto-tracked events depend only on the
selectors the clicked element matches, whether or not it is opted in:
`button_click` is produced exactly when the target matches the button
selector, `form_submit_attempt` exactly when it matches the submit selector
and has an enclosing form, `link_click` exactly when it matches `a[href]`; the
`click` event is produced, before them, exactly when the target or an ancestor
carries `data-track`. -/
theorem click_event_types (origin : String) (c : ClickEvent) :
    eventTypes (handleClick origin c)
      = (if (c.closest hasDataTrack).isSome then ["click"] else [])
        ++ (if isButtonLike c.target then ["button_click"] else [])
        ++ (if isSubmitControl c.target && (c.closest isForm).isSome then
              ["form_submit_attempt"] else [])
        ++ (if isAnchorWithHref c.target then ["link_click"] else []) := by
  unfold handleClick optInClickListener autoClickListener eventTypes
  cases h1 : c.closest hasDataTrack <;> cases h2 : isButtonLike c.target <;>
    cases h3 : isSubmitControl c.target <;> cases h4 : c.closest isForm <;>
    cases h5 : isAnchorWithHref c.target <;> simp [h1, h2, h3, h4, h5]

/-- C13: the `form_field_change` payload depends on the field's value only
through `hasValue`: two changed fields that agree on type, tag name, name and
id and whose values are both empty or both non-empty produce the same
`trackEvent` call. -/
theorem field_change_hides_value (e1 e2 : Element)
    (htag : e1.localName = e2.localName) (htype : e1.type = e2.type)
    (hname : e1.name = e2.name) (hid : e1.id = e2.id)
    (hval : isFalsy e1.value = isFalsy e2.value) :
    changeListener e1 = changeListener e2 := by
  simp [changeListener, isFormControl, htag, htype, hname, hid, hval]

/-- C13 on an e-mail field with two different non-empty values. -/
theorem field_change_hides_value_witness :
    changeListener (emailInput "alice@example.org") = changeListener (emailInput "secret") :=
  field_change_hides_value (emailInput "alice@example.org") (emailInput "secret")
    rfl rfl rfl rfl (by decide)

/-- The initialisers that guard their lookup return without effect and
without error when the element is absent. -/
theorem guarded_initialisers_noop (env : DateEnv) (d : Document) (data : AnalyticsData) :
    (d.getElementById "submissionsChart" = none →
        initializeSubmissionsChart env d data = InitResult.nothing)
      ∧ (d.getElementById "performanceChart" = none →
        initializePerformanceChart d data = InitResult.nothing)
      ∧ (d.getElementById "fieldAnalyticsChart" = none →
        initializeFieldAnalyticsChart d data = InitResult.nothing)
      ∧ (d.getElementById "formBuilder" = none →
        initializeSortable d = InitResult.nothing) := by
  refine ⟨fun h => ?_, fun h => ?_, fun h => ?_, fun h => ?_⟩
  · simp [initializeSubmissionsChart, h]
  · simp [initializePerformanceChart, h]
  · unfold initializeFieldAnalyticsChart
    simp only [h]
    split <;> rfl
  · simp [initializeSortable, h]

/-- C14 (code evaluated at the failing input): on a page that has the
`formBuilder` container but no `formTitle` element, the `DOMContentLoaded`
listener of the form builder first attaches the two drag listeners and then
throws a `TypeError`; on a page with none of the elements it throws as
well. -/
theorem form_builder_init_throws :
    builderOnlyPage.getElementById "formTitle" = none
      ∧ formBuilderInit builderOnlyPage
        = { effects := [.addEventListener "formBuilder" "dragover" "handleDragOver",
                        .addEventListener "formBuilder" "drop" "handleDrop"]
            thrown := some nullTypeError }
      ∧ formBuilderInit { elements := [] } = { effects := [], thrown := some nullTypeError } := by
  decide

/-- C15: `flushEvents` on an empty queue is a no-op: it issues no request,
leaves the tracker (and so the empty queue) as it is, its promise is
fulfilled, and the world does not change. -/
theorem flush_empty_noop (cfg : Config) (iso : String) (w : World)
    (hq : w.tracker.eventQueue = []) :
    flushEvents cfg iso w.tracker = (w.tracker, none)
      ∧ (flushEvents cfg iso w.tracker).1.eventQueue = []
      ∧ flushEventsReturn cfg iso w.tracker = some Settled.fulfilled
      ∧ step cfg w (.flush iso) = w := by
  have h : flushEvents cfg iso w.tracker = (w.tracker, none) := by
    simp [flushEvents, hq]
  refine ⟨h, by rw [h]; exact hq, by simp [flushEventsReturn, h], ?_⟩
  simp [step, h]

/-- C15 on the initial world with the shipped configuration. -/
theorem flush_empty_noop_witness :
    step TRACKING_CONFIG (initialWorld (some "s") none) (.flush "F")
      = initialWorld (some "s") none :=
  (flush_empty_noop TRACKING_CONFIG "F" (initialWorld (some "s") none) rfl).2.2.2

/-- C16: with `enabled` false, `trackEvent` is a no-op for every type, data
and queue, whatever the queue length: the tracker is unchanged, no request is
issued, and the world does not change. -/
theorem track_disabled_noop (cfg : Config) (env : Env) (w : World) (ty : String)
    (d : EventData) (hen : cfg.enabled = false) :
    trackEvent cfg env w.tracker ty d = (w.tracker, none)
      ∧ step cfg w (.track ty d env) = w := by
  have h := trackEvent_disabled cfg env w.tracker ty d hen
  exact ⟨h, by simp [step, h]⟩

/-- C16 with a batch size of one and two events already queued. -/
theorem track_disabled_noop_witness :
    trackEvent disabledConfig (sampleEnv 3) (queuedWorld [sampleEvent 1, sampleEvent 2]).tracker
        "click" []
      = ((queuedWorld [sampleEvent 1, sampleEvent 2]).tracker, none) :=
  (track_disabled_noop disabledConfig (sampleEnv 3)
    (queuedWorld [sampleEvent 1, sampleEvent 2]) "click" [] rfl).1

/-- The loop of `validateFormConfig` returns what the first failing check of
the specification gives. -/
theorem validateFields_spec (fields : List Field) :
    validateFields fields
      = match (fields.flatMap fun field =>
            [(!isBlank field.label, "All fields must have a label."),
             (!isBlank field.name, "All fields must have a name."),
             (!hasOptions field.type || decide (1 ≤ field.options.length),
               optionsMessage field.label)]).find? (fun c => !c.1) with
        | none => { valid := true, message := none }
        | some c => { valid := false, message := some c.2 } := by
  induction fields with
  | nil => rfl
  | cons f rest ih =>
    simp only [validateFields, List.flatMap_cons, List.cons_append, List.nil_append,
      List.find?_cons]
    cases hl : isBlank f.label
    · cases hn : isBlank f.name
      · cases ho : hasOptions f.type
        · simpa using ih
        · cases hlen : f.options with
          | nil => simp
          | cons o os => simpa using ih
      · simp
    · simp

/-- The loop of `validateFormConfig` accepts exactly the lists in which every
field passes its three checks. -/
theorem validateFields_valid (fields : List Field) :
    (validateFields fields).valid = true
      ↔ ∀ f ∈ fields, isBlank f.label = false ∧ isBlank f.name = false
          ∧ (hasOptions f.type = true → 1 ≤ f.options.length) := by
  induction fields with
  | nil => simp [validateFields]
  | cons f rest ih =>
    simp only [validateFields, List.mem_cons, forall_eq_or_imp]
    cases hl : isBlank f.label
    · cases hn : isBlank f.name
      · cases ho : hasOptions f.type
        · simpa using ih
        · cases hlen : f.options with
          | nil => simp
          | cons o os => simpa using ih
      · simp
    · simp

/-- C17: `validateFormConfig` returns `valid = true` exactly when the title
is not blank and every field has a non-blank label, a non-blank name and, if
its type is select, radio or checkbox, at least one option; in every case its
result is the one the ordered checks of the specification give: valid when all
pass, otherwise invalid with the message of the first failing check (title,
then per field in list order label, name, options). -/
theorem validate_form_config_spec (form : Form) :
    validateFormConfig form = specValidation form
      ∧ ((validateFormConfig form).valid = true
          ↔ (isBlank form.title = false
              ∧ ∀ f ∈ form.fields, isBlank f.label = false ∧ isBlank f.name = false
                  ∧ (hasOptions f.type = true → 1 ≤ f.options.length))) := by
  constructor
  · unfold validateFormConfig specValidation specChecks
    cases ht : isBlank form.title
    · simpa using validateFields_spec form.fields
    · simp
  · unfold validateFormConfig
    cases ht : isBlank form.title
    · simpa using validateFields_valid form.fields
    · simp

/-- C17 on a form whose second field is a dropdown without options: the
result is invalid with the options message of that field. -/
theorem validate_form_config_spec_witness :
    validateFormConfig contactForm
      = { valid := false, message := some "Field \"Colour\" must have at least one option." } :=
  (validate_form_config_spec contactForm).1.trans (by decide)

theorem lookup_of_mem_keys (entries : List (String × Int)) (key : String)
    (h : key ∈ entries.map Prod.fst) :
    ∃ c, entries.lookup key = some c ∧ (key, c) ∈ entries := by
  induction entries with
  | nil => simp at h
  | cons e rest ih =>
    obtain ⟨k, v⟩ := e
    by_cases hk : key = k
    · subst hk
      exact ⟨v, by simp [List.lookup], by simp⟩
    · have hmem : key ∈ rest.map Prod.fst := by
        simpa [hk] using h
      obtain ⟨c, hc, hin⟩ := ih hmem
      refine ⟨c, ?_, List.mem_cons_of_mem _ hin⟩
      have hbeq : (key == k) = false := by simpa using hk
      simp [List.lookup, hbeq, hc]

theorem zip_map_self (l : List String) (f : String → Int) :
    List.zip l (l.map f) = l.map fun a => (a, f a) := by
  induction l with
  | nil => rfl
  | cons a rest ih => simp [ih]

theorem sortStrings_perm (l : List String) : (sortStrings l).Perm l :=
  List.perm_insertionSort _ l

theorem codeUnitsLe_total : ∀ (a b : List Nat), codeUnitsLe a b = true ∨ codeUnitsLe b a = true
  | [], _ => Or.inl rfl
  | _ :: _, [] => Or.inr rfl
  | a :: as, b :: bs => by
    simp only [codeUnitsLe, Bool.or_eq_true, Bool.and_eq_true, decide_eq_true_eq, beq_iff_eq]
    rcases Nat.lt_trichotomy a b with h | h | h
    · exact Or.inl (Or.inl h)
    · rcases codeUnitsLe_total as bs with h2 | h2
      · exact Or.inl (Or.inr ⟨h, h2⟩)
      · exact Or.inr (Or.inr ⟨h.symm, h2⟩)
    · exact Or.inr (Or.inl h)

theorem codeUnitsLe_trans :
    ∀ (a b c : List Nat), codeUnitsLe a b = true → codeUnitsLe b c = true →
      codeUnitsLe a c = true
  | [], _, _, _, _ => by simp [codeUnitsLe]
  | _ :: _, [], _, h, _ => by simp [codeUnitsLe] at h
  | _ :: _, _ :: _, [], _, h => by simp [codeUnitsLe] at h
  | a :: as, b :: bs, c :: cs, h1, h2 => by
    simp only [codeUnitsLe, Bool.or_eq_true, Bool.and_eq_true, decide_eq_true_eq,
      beq_iff_eq] at h1 h2 ⊢
    rcases h1 with h1 | ⟨h1, h1r⟩
    · rcases h2 with h2 | ⟨h2, _⟩
      · exact Or.inl (by omega)
      · exact Or.inl (by omega)
    · rcases h2 with h2 | ⟨h2, h2r⟩
      · exact Or.inl (by omega)
      · exact Or.inr ⟨by omega, codeUnitsLe_trans as bs cs h1r h2r⟩

theorem sortStrings_sorted (l : List String) : (sortStrings l).Sorted sortOrder := by
  have h := @List.sorted_insertionSort String
    (fun a b => codeUnitsLe (utf16CodeUnits a) (utf16CodeUnits b) = true) _
    ⟨fun a b => codeUnitsLe_total _ _⟩ ⟨fun a b c => codeUnitsLe_trans _ _ _⟩ l
  exact h

/-- The arrays of the submissions chart: without `submissions_by_date` entries
(member absent or empty) they are the seven dates computed by `setDate` and
`toISOString` for 6, 5, ..., 0 days back, each with count 0; with entries the
dates are the entry dates in ascending order and each count is the one recorded
for the date at the same position; dates and counts always have equal length,
and the chart is created with the labels of these dates and these counts. -/
theorem submissions_series_spec (env : DateEnv) (data : AnalyticsData) :
    ((data.submissions_by_date = none ∨ data.submissions_by_date = some []) →
        submissionsSeries env data
          = ([env.isoDaysAgo 6, env.isoDaysAgo 5, env.isoDaysAgo 4, env.isoDaysAgo 3,
              env.isoDaysAgo 2, env.isoDaysAgo 1, env.isoDaysAgo 0],
             [0, 0, 0, 0, 0, 0, 0]))
      ∧ (∀ entries : List (String × Int), data.submissions_by_date = some entries →
          entries ≠ [] →
          (submissionsSeries env data).1.Sorted sortOrder
            ∧ (submissionsSeries env data).1.Perm (entries.map Prod.fst)
            ∧ ∀ p ∈ List.zip (submissionsSeries env data).1 (submissionsSeries env data).2,
                p ∈ entries)
      ∧ (submissionsSeries env data).1.length = (submissionsSeries env data).2.length
      ∧ ∀ (d : Document) (ctx : Element), d.getElementById "submissionsChart" = some ctx →
          initializeSubmissionsChart env d data
            = { effects := [.newChart "submissionsChart" "line"
                  ((submissionsSeries env data).1.map env.formatLabel)
                  (submissionsSeries env data).2]
                thrown := none } := by
  refine ⟨fun h => ?_, fun entries he hne => ?_, ?_, fun d ctx hd => ?_⟩
  · rcases h with h | h <;> simp [submissionsSeries, h, sortStrings]
  · have hlen : ¬ (sortStrings (entries.map Prod.fst)).length = 0 := by
      rw [(sortStrings_perm _).length_eq]
      simpa using hne
    have hs : submissionsSeries env data
        = (sortStrings (entries.map Prod.fst),
            (sortStrings (entries.map Prod.fst)).map
              fun date => (entries.lookup date).getD 0) := by
      simp only [submissionsSeries, he, Option.getD_some, if_neg hlen]
    rw [hs]
    refine ⟨sortStrings_sorted _, sortStrings_perm _, ?_⟩
    intro p hp
    rw [zip_map_self] at hp
    obtain ⟨key, hkey, rfl⟩ := List.mem_map.1 hp
    have hk : key ∈ entries.map Prod.fst := (sortStrings_perm _).mem_iff.1 hkey
    obtain ⟨c, hc, hin⟩ := lookup_of_mem_keys entries key hk
    simpa [hc] using hin
  · unfold submissionsSeries
    simp only []
    split
    · simp_all
    · simp
  · simp [initializeSubmissionsChart, hd]

/-- The arrays on data without entries and on data with two entries listed
latest first: seven zero counts in the first case, the two dates in ascending
order in the second. -/
theorem submissions_series_spec_witness :
    submissionsSeries novemberEnv noSubmissions
        = ([novemberEnv.isoDaysAgo 6, novemberEnv.isoDaysAgo 5, novemberEnv.isoDaysAgo 4,
            novemberEnv.isoDaysAgo 3, novemberEnv.isoDaysAgo 2, novemberEnv.isoDaysAgo 1,
            novemberEnv.isoDaysAgo 0],
           [0, 0, 0, 0, 0, 0, 0])
      ∧ (submissionsSeries novemberEnv twoDays).1.Sorted sortOrder :=
  ⟨(submissions_series_spec novemberEnv noSubmissions).1 (Or.inl rfl),
    ((submissions_series_spec novemberEnv twoDays).2.1
      [("2024-11-19", 4), ("2024-11-03", 1)] rfl (by decide)).1⟩

theorem submissionsSeries_twoDays :
    submissionsSeries novemberEnv twoDays = (["2024-11-03", "2024-11-19"], [1, 4]) := by
  decide

theorem digitChar_toNat (k : Nat) (hk : k < 10) : (Nat.digitChar k).toNat - 48 = k := by
  interval_cases k <;> rfl

theorem toDigitsCore_decode (fuel : Nat) :
    ∀ (n : Nat) (ds : List Char), n < fuel →
      decodeDigits 0 (Nat.toDigitsCore 10 fuel n ds) = decodeDigits n ds := by
  induction fuel with
  | zero => intro n ds h; omega
  | succ fuel ih =>
    intro n ds h
    have hd := digitChar_toNat (n % 10) (Nat.mod_lt _ (by norm_num))
    simp only [Nat.toDigitsCore]
    by_cases h0 : n / 10 = 0
    · simp only [h0, if_true, decodeDigits, List.foldl_cons, hd]
      have : n % 10 = n := Nat.mod_eq_of_lt (by omega)
      simp [this]
    · simp only [h0, if_false]
      rw [ih (n / 10) _ (by omega)]
      simp only [decodeDigits, List.foldl_cons, hd]
      have : n / 10 * 10 + n % 10 = n := by omega
      rw [this]

/-- The decimal rendering of a natural number determines the number. -/
theorem toString_nat_injective (n m : Nat) (h : toString n = toString m) : n = m := by
  have hn := toDigitsCore_decode (n + 1) n [] (by omega)
  have hm := toDigitsCore_decode (m + 1) m [] (by omega)
  have hd : Nat.toDigits 10 n = Nat.toDigits 10 m := by
    have := congrArg String.data h
    simpa [toString, Nat.repr, List.asString] using this
  simp only [Nat.toDigits] at hd
  rw [hd, hm] at hn
  simpa [decodeDigits] using hn.symm

theorem fieldId_injective (n m : Nat) (h : fieldId n = fieldId m) : n = m := by
  apply toString_nat_injective
  have := congrArg String.data h
  simp only [fieldId, String.data_append, List.append_cancel_left_eq] at this
  exact String.ext this

theorem spliceInsert_perm (l : List Field) (index : Nat) (x : Field) :
    (spliceInsert l index x).Perm (x :: l) := by
  unfold spliceInsert
  have h : (l.take index ++ [x] ++ l.drop index).Perm (x :: (l.take index ++ l.drop index)) := by
    rw [List.append_assoc]
    exact List.perm_middle
  rwa [List.take_append_drop] at h

/-- A fresh id, one above the counter, differs from every id in the list. -/
theorem fresh_id_not_mem (b : Builder) (h : FieldIdsOk b) :
    fieldId (b.fieldCounter + 1) ∉ b.currentForm.fields.map Field.id := by
  intro hmem
  obtain ⟨f, hf, hid⟩ := List.mem_map.1 hmem
  obtain ⟨k, _, hk, hfk⟩ := h.2 f hf
  have := fieldId_injective _ _ (hfk.symm.trans hid)
  omega

theorem addField_ok (fieldType : String) (b : Builder) (h : FieldIdsOk b) :
    FieldIdsOk (addField fieldType b) := by
  have hfresh := fresh_id_not_mem b h
  constructor
  · simp only [addField, List.map_append, List.map_cons, List.map_nil]
    rw [List.nodup_append]
    refine ⟨h.1, List.nodup_singleton _, ?_⟩
    intro a ha hb
    rw [List.mem_singleton] at hb
    exact hfresh (hb ▸ ha)
  · intro f hf
    simp only [addField, List.mem_append, List.mem_singleton] at hf ⊢
    rcases hf with hf | hf
    · obtain ⟨k, h1, hk, hfk⟩ := h.2 f hf
      exact ⟨k, h1, by omega, hfk⟩
    · exact ⟨b.fieldCounter + 1, by omega, le_refl _, by rw [hf]⟩

theorem removeField_ok (id : String) (b : Builder) (h : FieldIdsOk b) :
    FieldIdsOk (removeField id b) := by
  constructor
  · simp only [removeField]
    exact h.1.sublist ((List.filter_sublist _).map _)
  · intro f hf
    simp only [removeField] at hf ⊢
    exact h.2 f (List.mem_of_mem_filter hf)

theorem duplicateField_ok (id : String) (b : Builder) (h : FieldIdsOk b) :
    FieldIdsOk (duplicateField id b) := by
  have hfresh := fresh_id_not_mem b h
  unfold duplicateField
  cases hfind : b.currentForm.fields.find? (fun f => f.id == id) with
  | none => exact h
  | some field =>
    simp only []
    constructor
    · have hp := (spliceInsert_perm b.currentForm.fields
        (b.currentForm.fields.findIdx (fun f => f.id == id) + 1)
        { field with id := fieldId (b.fieldCounter + 1)
                     name := field.name ++ "_copy"
                     label := field.label ++ " (Copy)" }).map Field.id
      rw [hp.nodup_iff, List.map_cons, List.nodup_cons]
      exact ⟨hfresh, h.1⟩
    · intro f hf
      have hf2 := (spliceInsert_perm _ _ _).mem_iff.1 hf
      rcases List.mem_cons.1 hf2 with hf3 | hf3
      · exact ⟨b.fieldCounter + 1, by omega, le_refl _, by rw [hf3]⟩
      · obtain ⟨k, h1, hk, hfk⟩ := h.2 f hf3
        exact ⟨k, h1, Nat.le_succ_of_le hk, hfk⟩

theorem applyOps_ok (ops : List BuilderOp) (b : Builder) (h : FieldIdsOk b) :
    FieldIdsOk (applyOps b ops) := by
  induction ops generalizing b with
  | nil => exact h
  | cons op rest ih =>
    apply ih
    cases op with
    | add fieldType => exact addField_ok fieldType b h
    | duplicate id => exact duplicateField_ok id b h
    | remove id => exact removeField_ok id b h

/-- C19: starting from the initial empty form, after every sequence of
`addField`, `duplicateField` and `removeField` calls with any arguments, the
fields of `currentForm` have pairwise distinct ids, and every id is `field_k`
for some `k` with `1 ≤ k ≤ fieldCounter`. -/
theorem field_ids_distinct (ops : List BuilderOp) :
    ((applyOps Builder.initial ops).currentForm.fields.map Field.id).Nodup
      ∧ ∀ f ∈ (applyOps Builder.initial ops).currentForm.fields,
          ∃ k, 1 ≤ k ∧ k ≤ (applyOps Builder.initial ops).fieldCounter
            ∧ f.id = "field_" ++ toString k :=
  applyOps_ok ops Builder.initial ⟨by simp [Builder.initial], by simp [Builder.initial]⟩

/-- C20 (code evaluated at the failing input): after `addField('text')`
and two `duplicateField('field_1')` calls the form has three fields, and the
two copies have the same name `field_1_copy`. -/
theorem duplicate_twice_same_name :
    (applyOps Builder.initial duplicateTwice).currentForm.fields.map
        (fun f => (f.id, f.name))
      = [("field_1", "field_1"), ("field_3", "field_1_copy"), ("field_2", "field_1_copy")]
      ∧ ¬ ((applyOps Builder.initial duplicateTwice).currentForm.fields.map
            Field.name).Nodup := by
  decide

theorem find_first_match (pre post : List Field) (field : Field) (id : String)
    (hid : field.id = id) (hpre : ∀ f ∈ pre, f.id ≠ id) :
    (pre ++ field :: post).find? (fun f => f.id == id) = some field := by
  induction pre with
  | nil => simp [hid]
  | cons p rest ih =>
    have hp : (p.id == id) = false := by
      simpa using hpre p (List.mem_cons_self _ _)
    simp only [List.cons_append, List.find?_cons, hp]
    exact ih fun f hf => hpre f (List.mem_cons_of_mem _ hf)

theorem findIdx_first_match (pre post : List Field) (field : Field) (id : String)
    (hid : field.id = id) (hpre : ∀ f ∈ pre, f.id ≠ id) :
    (pre ++ field :: post).findIdx (fun f => f.id == id) = pre.length := by
  induction pre with
  | nil => simp [List.findIdx_cons, hid]
  | cons p rest ih =>
    have hp : (p.id == id) = false := by
      simpa using hpre p (List.mem_cons_self _ _)
    simp only [List.cons_append, List.findIdx_cons, hp, List.length_cons]
    simpa using ih fun f hf => hpre f (List.mem_cons_of_mem _ hf)

theorem spliceInsert_after (pre post : List Field) (field x : Field) :
    spliceInsert (pre ++ field :: post) (pre.length + 1) x = pre ++ field :: x :: post := by
  induction pre with
  | nil => simp [spliceInsert]
  | cons p rest ih =>
    simp only [spliceInsert, List.cons_append, List.length_cons, List.take_succ_cons,
      List.drop_succ_cons] at ih ⊢
    rw [ih]

theorem first_match_split (fields : List Field) (id : String)
    (h : ∃ f ∈ fields, f.id = id) :
    ∃ (pre post : List Field) (field : Field),
      fields = pre ++ field :: post ∧ field.id = id ∧ ∀ f ∈ pre, f.id ≠ id := by
  induction fields with
  | nil => simp at h
  | cons x rest ih =>
    by_cases hx : x.id = id
    · exact ⟨[], rest, x, rfl, hx, by simp⟩
    · obtain ⟨f, hf, hfid⟩ := h
      have hrest : ∃ f ∈ rest, f.id = id := by
        rcases List.mem_cons.1 hf with h1 | h1
        · exact absurd (h1 ▸ hfid) hx
        · exact ⟨f, h1, hfid⟩
      obtain ⟨pre, post, field, he, hid, hpre⟩ := ih hrest
      refine ⟨x :: pre, post, field, by rw [he]; rfl, hid, ?_⟩
      intro g hg
      rcases List.mem_cons.1 hg with h1 | h1
      · rw [h1]; exact hx
      · exact hpre g h1

/-- C21: for every form and every id present in it, with `field` the first
field carrying that id, `duplicateField(id)` turns the field list
`pre ++ field :: post` into `pre ++ field :: copy :: post` (one more field, the
copy right after the original, everything else in place), increments the
counter and leaves title and description alone; the copy has the id
`field_<new counter>`, the name `<name>_copy`, the label `<label> (Copy)` and
the type, placeholder, required flag and options of the original; in every
state reached by the field operations that id occurs nowhere else in the form;
for an id that is not present nothing changes. -/
theorem duplicate_field_spec (b : Builder) (id : String) :
    (∀ (pre post : List Field) (field : Field),
        b.currentForm.fields = pre ++ field :: post → field.id = id →
        (∀ f ∈ pre, f.id ≠ id) →
        duplicateField id b
            = { currentForm :=
                  { title := b.currentForm.title
                    description := b.currentForm.description
                    fields := pre ++ field ::
                      { id := "field_" ++ toString (b.fieldCounter + 1)
                        type := field.type
                        label := field.label ++ " (Copy)"
                        name := field.name ++ "_copy"
                        placeholder := field.placeholder
                        required := field.required
                        options := field.options } :: post }
                fieldCounter := b.fieldCounter + 1 }
          ∧ (duplicateField id b).currentForm.fields.length
              = b.currentForm.fields.length + 1)
      ∧ ((∃ f ∈ b.currentForm.fields, f.id = id) →
          ∃ (pre post : List Field) (field : Field),
            b.currentForm.fields = pre ++ field :: post ∧ field.id = id
              ∧ ∀ f ∈ pre, f.id ≠ id)
      ∧ (FieldIdsOk b →
          "field_" ++ toString (b.fieldCounter + 1) ∉ b.currentForm.fields.map Field.id)
      ∧ ((∀ f ∈ b.currentForm.fields, f.id ≠ id) → duplicateField id b = b) := by
  refine ⟨fun pre post field hsplit hid hpre => ?_, first_match_split _ id,
    fresh_id_not_mem b, fun habs => ?_⟩
  · have hfind := find_first_match pre post field id hid hpre
    have hidx := findIdx_first_match pre post field id hid hpre
    have hdup : duplicateField id b
        = { currentForm :=
              { title := b.currentForm.title
                description := b.currentForm.description
                fields := pre ++ field ::
                  { id := "field_" ++ toString (b.fieldCounter + 1)
                    type := field.type
                    label := field.label ++ " (Copy)"
                    name := field.name ++ "_copy"
                    placeholder := field.placeholder
                    required := field.required
                    options := field.options } :: post }
            fieldCounter := b.fieldCounter + 1 } := by
      unfold duplicateField
      rw [hsplit, hfind]
      simp only [hidx, spliceInsert_after, fieldId]
    refine ⟨hdup, ?_⟩
    rw [hdup, hsplit]
    simp
    omega
  · unfold duplicateField
    have hnone : b.currentForm.fields.find? (fun f => f.id == id) = none := by
      rw [List.find?_eq_none]
      intro f hf
      simpa using habs f hf
    rw [hnone]

/-- C21 on a form with a text field and a dropdown: duplicating the text
field puts its copy between the two. -/
theorem duplicate_field_spec_witness :
    (duplicateField "field_1" twoFieldBuilder).currentForm.fields.length
      = twoFieldBuilder.currentForm.fields.length + 1 :=
  ((duplicate_field_spec twoFieldBuilder "field_1").1 []
    [{ id := "field_2", type := "select", label := "Dropdown Field", name := "field_2",
       placeholder := "", required := false, options := ["Option 1", "Option 2"] }]
    { id := "field_1", type := "text", label := "Text Input Field", name := "field_1",
      placeholder := "", required := false, options := [] }
    (by decide) (by decide) (by simp)).2

theorem sanitize_examples :
    sanitizeFieldName jsToLowerCase "First Name!" = "first_name"
      ∧ sanitizeFieldName jsToLowerCase "  E-mail  (work) " = "e_mail_work"
      ∧ sanitizeFieldName jsToLowerCase "?!" = "field"
      ∧ sanitizeFieldName jsToLowerCase "" = "field" := by
  decide

theorem replaceNonAlnum_chars (l : List Char) (hl : ∀ c ∈ l, isUpperAscii c = false) :
    ∀ d ∈ replaceNonAlnum l, isNameChar d = true := by
  intro d hd
  simp only [replaceNonAlnum, List.mem_flatMap] at hd
  obtain ⟨c, hc, hdc⟩ := hd
  by_cases ha : isAsciiAlnum c = true
  · rw [if_pos ha, List.mem_singleton] at hdc
    subst hdc
    have hu := hl d hc
    simp only [isAsciiAlnum, isUpperAscii, isNameChar, Bool.or_eq_true, Bool.and_eq_true,
      decide_eq_true_eq, Bool.and_eq_false_iff, decide_eq_false_iff_not] at ha hu ⊢
    omega
  · rw [if_neg ha] at hdc
    have := (List.mem_replicate.1 hdc).2
    subst this
    decide

theorem collapseUnderscores_subset :
    ∀ (l : List Char), ∀ d ∈ collapseUnderscores l, d ∈ l
  | [], d, hd => by simp [collapseUnderscores] at hd
  | [c], d, hd => by simpa [collapseUnderscores] using hd
  | c :: e :: rest, d, hd => by
    simp only [collapseUnderscores] at hd
    split at hd
    · exact List.mem_cons_of_mem _ (collapseUnderscores_subset (e :: rest) d hd)
    · rcases List.mem_cons.1 hd with h | h
      · rw [h]; exact List.mem_cons_self _ _
      · exact List.mem_cons_of_mem _ (collapseUnderscores_subset (e :: rest) d h)

theorem collapseUnderscores_head :
    ∀ (c : Char) (rest : List Char), (collapseUnderscores (c :: rest)).head? = some c
  | c, [] => rfl
  | c, e :: rest => by
    simp only [collapseUnderscores]
    split
    · rename_i h
      rw [collapseUnderscores_head e rest, h.1, h.2]
    · rfl

theorem collapseUnderscores_chain :
    ∀ (l : List Char), (collapseUnderscores l).Chain' NotBothUnderscore
  | [] => List.chain'_nil
  | [c] => List.chain'_singleton c
  | c :: e :: rest => by
    simp only [collapseUnderscores]
    split
    · exact collapseUnderscores_chain (e :: rest)
    · rename_i h
      rw [List.chain'_cons']
      refine ⟨?_, collapseUnderscores_chain (e :: rest)⟩
      intro y hy
      rw [collapseUnderscores_head e rest] at hy
      simp only [Option.mem_def, Option.some.injEq] at hy
      subst hy
      exact h

theorem collapseUnderscores_fixed :
    ∀ (l : List Char), l.Chain' NotBothUnderscore → collapseUnderscores l = l
  | [], _ => rfl
  | [c], _ => rfl
  | c :: e :: rest, h => by
    rw [List.chain'_cons] at h
    simp only [collapseUnderscores]
    rw [if_neg h.1, collapseUnderscores_fixed (e :: rest) h.2]

theorem dropLeadingUnderscore_subset (l : List Char) :
    ∀ d ∈ dropLeadingUnderscore l, d ∈ l := by
  intro d hd
  cases l with
  | nil => simp [dropLeadingUnderscore] at hd
  | cons c rest =>
    simp only [dropLeadingUnderscore] at hd
    split at hd
    · exact List.mem_cons_of_mem _ hd
    · exact hd

theorem dropLeadingUnderscore_chain (l : List Char) (h : l.Chain' NotBothUnderscore) :
    (dropLeadingUnderscore l).Chain' NotBothUnderscore := by
  cases l with
  | nil => exact h
  | cons c rest =>
    simp only [dropLeadingUnderscore]
    split
    · exact h.tail
    · exact h

theorem dropLeadingUnderscore_head (l : List Char) (h : l.Chain' NotBothUnderscore) :
    (dropLeadingUnderscore l).head? ≠ some '_' := by
  cases l with
  | nil => simp [dropLeadingUnderscore]
  | cons c rest =>
    simp only [dropLeadingUnderscore]
    split
    · rename_i hc
      intro hr
      rw [List.chain'_cons'] at h
      exact h.1 '_' hr ⟨hc, rfl⟩
    · rename_i hc
      simpa using hc

theorem dropLeadingUnderscore_getLast (l : List Char) (h : l.getLast? ≠ some '_') :
    (dropLeadingUnderscore l).getLast? ≠ some '_' := by
  cases l with
  | nil => simp [dropLeadingUnderscore]
  | cons c rest =>
    simp only [dropLeadingUnderscore]
    split
    · intro hr
      apply h
      rw [List.getLast?_cons, hr]
      rfl
    · exact h

theorem dropLeadingUnderscore_fixed (l : List Char) (h : l.head? ≠ some '_') :
    dropLeadingUnderscore l = l := by
  cases l with
  | nil => rfl
  | cons c rest =>
    have hc : c ≠ '_' := by simpa using h
    simp [dropLeadingUnderscore, hc]

theorem chain_reverse (l : List Char) (h : l.Chain' NotBothUnderscore) :
    l.reverse.Chain' NotBothUnderscore := by
  rw [List.chain'_reverse]
  exact h.imp fun a b hab hba => hab ⟨hba.2, hba.1⟩

theorem stripUnderscores_subset (l : List Char) : ∀ d ∈ stripUnderscores l, d ∈ l := by
  intro d hd
  simp only [stripUnderscores, List.mem_reverse] at hd
  have h1 := dropLeadingUnderscore_subset _ d hd
  rw [List.mem_reverse] at h1
  exact dropLeadingUnderscore_subset _ d h1

theorem stripUnderscores_shape (l : List Char) (h : l.Chain' NotBothUnderscore) :
    (stripUnderscores l).Chain' NotBothUnderscore
      ∧ (stripUnderscores l).head? ≠ some '_'
      ∧ (stripUnderscores l).getLast? ≠ some '_' := by
  have hm := dropLeadingUnderscore_chain l h
  have hmh := dropLeadingUnderscore_head l h
  have hr := chain_reverse _ hm
  have hn := dropLeadingUnderscore_chain _ hr
  have hnh := dropLeadingUnderscore_head _ hr
  have hnl := dropLeadingUnderscore_getLast (dropLeadingUnderscore l).reverse
    (by rw [List.getLast?_reverse]; exact hmh)
  refine ⟨chain_reverse _ hn, ?_, ?_⟩
  · simp only [stripUnderscores, List.head?_reverse]
    exact hnl
  · simp only [stripUnderscores, List.getLast?_reverse]
    exact hnh

theorem stripUnderscores_fixed (l : List Char) (hh : l.head? ≠ some '_')
    (hl : l.getLast? ≠ some '_') : stripUnderscores l = l := by
  unfold stripUnderscores
  rw [dropLeadingUnderscore_fixed l hh,
    dropLeadingUnderscore_fixed l.reverse (by rw [List.head?_reverse]; exact hl),
    List.reverse_reverse]

theorem replaceNonAlnum_fixed (l : List Char) (h : ∀ c ∈ l, isNameChar c = true) :
    replaceNonAlnum l = l := by
  induction l with
  | nil => rfl
  | cons c rest ih =>
    have hrest := ih fun d hd => h d (List.mem_cons_of_mem _ hd)
    have hc := h c (List.mem_cons_self _ _)
    simp only [replaceNonAlnum, List.flatMap_cons] at hrest ⊢
    rw [hrest]
    by_cases hu : c = '_'
    · subst hu
      rfl
    · have ha : isAsciiAlnum c = true := by
        simp only [isNameChar, isAsciiAlnum, Bool.or_eq_true, Bool.and_eq_true,
          decide_eq_true_eq, beq_iff_eq] at hc ⊢
        rcases hc with (hc | hc) | hc
        · exact Or.inl (Or.inl hc)
        · exact Or.inr hc
        · exact absurd hc hu
      rw [if_pos ha]
      rfl

theorem no_underscore_pair (l : List Char) (h : l.Chain' NotBothUnderscore) :
    ∀ (pre post : List Char), l ≠ pre ++ '_' :: '_' :: post := by
  intro pre post heq
  subst heq
  induction pre with
  | nil =>
    rw [List.nil_append, List.chain'_cons] at h
    exact h.1 ⟨rfl, rfl⟩
  | cons p rest ih =>
    rw [List.cons_append] at h
    exact ih h.tail

theorem field_isSanitized : IsSanitized "field".data := by
  refine ⟨by decide, by decide, ?_, by decide, by decide⟩
  simp [NotBothUnderscore]

/-- The characters left after the three replacements form a sanitised name
unless nothing is left. -/
theorem cleaned_isSanitized (l : List Char) (hl : ∀ c ∈ l, isUpperAscii c = false)
    (hne : stripUnderscores (collapseUnderscores (replaceNonAlnum l)) ≠ []) :
    IsSanitized (stripUnderscores (collapseUnderscores (replaceNonAlnum l))) := by
  have hs := stripUnderscores_shape _ (collapseUnderscores_chain (replaceNonAlnum l))
  refine ⟨hne, fun c hc => ?_, hs.1, hs.2.1, hs.2.2⟩
  exact replaceNonAlnum_chars l hl c
    (collapseUnderscores_subset _ c (stripUnderscores_subset _ c hc))

theorem sanitizeFieldName_isSanitized (toLowerCase : String → String)
    (h : LowerCaseLaws toLowerCase) (name : String) :
    IsSanitized (sanitizeFieldName toLowerCase name).data := by
  unfold sanitizeFieldName
  simp only []
  by_cases he : stripUnderscores (collapseUnderscores
      (replaceNonAlnum (toLowerCase name).data)) = []
  · rw [he]
    exact field_isSanitized
  · have hne : String.mk (stripUnderscores (collapseUnderscores
        (replaceNonAlnum (toLowerCase name).data))) ≠ "" := by
      intro hs
      exact he (congrArg String.data hs)
    rw [if_neg hne]
    exact cleaned_isSanitized _ (h.1 name) he

theorem sanitizeFieldName_fixed (toLowerCase : String → String)
    (h : LowerCaseLaws toLowerCase) (r : String) (hr : IsSanitized r.data) :
    sanitizeFieldName toLowerCase r = r := by
  obtain ⟨hne, hchars, hchain, hhead, hlast⟩ := hr
  unfold sanitizeFieldName
  simp only []
  rw [h.2 r hchars, replaceNonAlnum_fixed _ hchars, collapseUnderscores_fixed _ hchain,
    stripUnderscores_fixed _ hhead hlast]
  have hne2 : String.mk r.data ≠ "" := by
    intro hs
    exact hne (congrArg String.data hs)
  rw [if_neg hne2]

theorem lowerChar_no_upper (c : Char) : ∀ d ∈ lowerChar c, isUpperAscii d = false := by
  intro d hd
  unfold lowerChar at hd
  split at hd
  · rename_i hu
    rw [List.mem_singleton] at hd
    subst hd
    simp only [isUpperAscii, Bool.and_eq_true, decide_eq_true_eq] at hu
    obtain ⟨n, hn⟩ : ∃ n, c.toNat = n := ⟨_, rfl⟩
    rw [hn] at hu ⊢
    obtain ⟨h1, h2⟩ := hu
    interval_cases n <;> decide
  · split at hd
    · rw [List.mem_singleton] at hd
      subst hd
      decide
    · split at hd
      · simp only [List.mem_cons, List.mem_singleton, List.not_mem_nil, or_false] at hd
        rcases hd with hd | hd <;> subst hd <;> decide
      · rename_i hu _ _
        rw [List.mem_singleton] at hd
        subst hd
        simpa using hu

theorem lowerChar_nameChar (c : Char) (h : isNameChar c = true) : lowerChar c = [c] := by
  by_cases hu : c = '_'
  · subst hu
    decide
  · simp only [isNameChar, Bool.or_eq_true, Bool.and_eq_true, decide_eq_true_eq,
      beq_iff_eq] at h
    have hn : (97 ≤ c.toNat ∧ c.toNat ≤ 122) ∨ (48 ≤ c.toNat ∧ c.toNat ≤ 57) := by
      rcases h with h | h
      · exact h
      · exact absurd h hu
    have h1 : isUpperAscii c = false := by
      simp only [isUpperAscii, Bool.and_eq_false_iff, decide_eq_false_iff_not]
      omega
    have h2 : ¬ c.toNat = 0x212A := by omega
    have h3 : ¬ c.toNat = 0x130 := by omega
    simp [lowerChar, h1, h2, h3]

/-- The lower-casing used in the examples satisfies both laws. -/
theorem jsToLowerCase_laws : LowerCaseLaws jsToLowerCase := by
  constructor
  · intro s c hc
    simp only [jsToLowerCase, List.mem_flatMap] at hc
    obtain ⟨a, _, ha⟩ := hc
    exact lowerChar_no_upper a c ha
  · intro s hs
    have hflat : ∀ l : List Char, (∀ c ∈ l, isNameChar c = true) →
        l.flatMap lowerChar = l := by
      intro l
      induction l with
      | nil => intro _; rfl
      | cons c rest ih =>
        intro hl
        rw [List.flatMap_cons, lowerChar_nameChar c (hl c (List.mem_cons_self _ _)),
          ih fun d hd => hl d (List.mem_cons_of_mem _ hd)]
        rfl
    unfold jsToLowerCase
    rw [hflat s.data hs]

/-- C22: for every input string, and every `toLowerCase` that never produces
`A` to `Z` and leaves strings over `a-z`, `0-9`, `_` alone (as the JavaScript
method does), `sanitizeFieldName` returns a non-empty string that contains only
the characters `a` to `z`, `0` to `9` and `_`, has no two consecutive
underscores and neither starts nor ends with an underscore; the result is
`field` when the replacements leave nothing; and `sanitizeFieldName` is
idempotent. -/
theorem sanitize_field_name_spec (toLowerCase : String → String)
    (h : LowerCaseLaws toLowerCase) (name : String) :
    sanitizeFieldName toLowerCase name ≠ ""
      ∧ (∀ c ∈ (sanitizeFieldName toLowerCase name).data, isNameChar c = true)
      ∧ (∀ (pre post : List Char),
          (sanitizeFieldName toLowerCase name).data ≠ pre ++ '_' :: '_' :: post)
      ∧ (sanitizeFieldName toLowerCase name).data.head? ≠ some '_'
      ∧ (sanitizeFieldName toLowerCase name).data.getLast? ≠ some '_'
      ∧ (stripUnderscores (collapseUnderscores
            (replaceNonAlnum (toLowerCase name).data)) = [] →
          sanitizeFieldName toLowerCase name = "field")
      ∧ sanitizeFieldName toLowerCase (sanitizeFieldName toLowerCase name)
          = sanitizeFieldName toLowerCase name := by
  have hs := sanitizeFieldName_isSanitized toLowerCase h name
  refine ⟨?_, hs.2.1, no_underscore_pair _ hs.2.2.1, hs.2.2.2.1, hs.2.2.2.2, ?_,
    sanitizeFieldName_fixed toLowerCase h _ hs⟩
  · intro he
    apply hs.1
    rw [he]
  · intro he
    simp [sanitizeFieldName, he]

/-- C22 on the label `First Name!`: the result `first_name` is not empty and
sanitising it again gives it back. -/
theorem sanitize_field_name_spec_witness :
    sanitizeFieldName jsToLowerCase "First Name!" ≠ ""
      ∧ sanitizeFieldName jsToLowerCase (sanitizeFieldName jsToLowerCase "First Name!")
          = sanitizeFieldName jsToLowerCase "First Name!" :=
  ⟨(sanitize_field_name_spec jsToLowerCase jsToLowerCase_laws "First Name!").1,
    (sanitize_field_name_spec jsToLowerCase jsToLowerCase_laws "First Name!").2.2.2.2.2.2⟩

/-- The date rendering agrees with the calendar on sample days, leap days
included. -/
theorem isoDate_examples :
    isoDate 0 = "1970-01-01" ∧ isoDate (-1) = "1969-12-31" ∧ isoDate 11016 = "2000-02-29"
      ∧ isoDate 19782 = "2024-02-29" ∧ isoDate 19783 = "2024-03-01"
      ∧ isoDate 20023 = "2024-10-27" ∧ isoDate 20088 = "2024-12-31"
      ∧ isoDate (-25508) = "1900-03-01" := by
  decide

/-- In a time zone with a fixed offset from UTC the date computed for `i`
days back is the UTC day of now minus `i`: the seven dates are then seven
consecutive days ending on the current UTC day. -/
theorem fixed_offset_days (env : DateEnv) (offset : Int)
    (hutc : ∀ t, env.offsetAtUtc t = offset) (hlocal : ∀ t, env.offsetAtLocal t = offset)
    (i : Nat) :
    dayOf (timeAfterSetDate env i) = dayOf env.now - i
      ∧ env.isoDaysAgo i = isoDate (dayOf env.now - i) := by
  have h : dayOf (timeAfterSetDate env i) = dayOf env.now - i := by
    simp only [dayOf, timeAfterSetDate, utcTime, localTime, hutc, hlocal, msPerDay]
    omega
  exact ⟨h, by simp only [DateEnv.isoDaysAgo, h]⟩

/-- C18 (code evaluated at the failing input): in the time zone
Europe/London at 00:30 local time on 28 October 2024, without submissions, the
chart gets the dates 21 to 26 and 28 October: `setDate` steps back in local
time, where 00:30 on the earlier days is still summer time, and `toISOString`
renders the UTC date, which is then the day before; 27 October, yesterday, is
missing and the seven dates are not consecutive days. -/
theorem submissions_week_skips_day :
    submissionsSeries londonEnv noSubmissions
        = (["2024-10-21", "2024-10-22", "2024-10-23", "2024-10-24", "2024-10-25",
            "2024-10-26", "2024-10-28"],
           [0, 0, 0, 0, 0, 0, 0])
      ∧ isoDate (dayOf londonEnv.now) = "2024-10-28"
      ∧ isoDate (dayOf londonEnv.now - 1) = "2024-10-27"
      ∧ "2024-10-27" ∉ (submissionsSeries londonEnv noSubmissions).1
      ∧ dayOf (timeAfterSetDate londonEnv 1) = dayOf londonEnv.now - 2 := by
  decide

/-- A click on `<input type="SUBMIT">` inside a form produces the
`form_submit_attempt` event: the selector compares the `type` value without
regard to case. -/
theorem upper_case_submit_matches :
    isSubmitControl upperSubmitClick.target = true
      ∧ eventTypes (handleClick pageOrigin upperSubmitClick) = ["form_submit_attempt"] := by
  decide

end FormCraft
